import Mathlib

/-!
Verification of the fast Zinc grid parser (`hszinc/fast_zincparser.py`).

The Python module is shallowly embedded below.  Python strings are modelled
as `PyStr := List Char` (a Python `str` is a sequence of code points; Lean
`Char` covers every Unicode scalar value — lone surrogates, which Python can
produce only via `chr` on the range 0xD800–0xDFFF, are mapped through
`Char.ofNat` and noted where relevant).  Python exceptions are modelled with
`Except Unit`: every `raise` site of the source becomes `.error ()`, and the
dispatcher `parse_grid`, which catches every exception, matches on the
result.  Regular expressions of the source are modelled by hand-written
deterministic matchers, each faithful to the backtracking behaviour of the
original pattern (argued in the comment of each matcher).  Behaviour of the
standard library and of the `iso8601` dependency (`float`, `int(_, 16)`,
`chr`, `strptime`, `iso8601.parse_date`) is modelled by explicit predicates,
documented at their definitions.  Character-class predicates (`\w`, `\d`,
`isupper`, whitespace) are exact on ASCII; code points at and above 0x80 are
treated as noted at each predicate.
-/

/-- A Python string: a sequence of code points. -/
abbrev PyStr := List Char

/-- Coerce a Lean string literal to the `PyStr` model. -/
def pystr (s : String) : PyStr := s.data

/-- The backtick character, U+0060. -/
def btick : Char := '\x60'

/-- The opening-brace character, U+007B. -/
def obrace : Char := '\x7b'

/-- Whitespace as stripped by Python `str.strip()` / matched by `\s`:
ASCII whitespace, the C1 separators, NEL, NBSP and the Unicode space
characters recognised by `str.isspace`. -/
def pyIsSpace (c : Char) : Bool :=
  c.toNat = 32 || c.toNat = 9 || c.toNat = 10 || c.toNat = 11
  || c.toNat = 12 || c.toNat = 13
  || c.toNat = 0x1c || c.toNat = 0x1d || c.toNat = 0x1e || c.toNat = 0x1f
  || c.toNat = 0x85 || c.toNat = 0xa0 || c.toNat = 0x1680
  || (0x2000 ≤ c.toNat && c.toNat ≤ 0x200a)
  || c.toNat = 0x2028 || c.toNat = 0x2029 || c.toNat = 0x202f
  || c.toNat = 0x205f || c.toNat = 0x3000

/-- Python `str.strip()` with no argument: drop leading and trailing
whitespace. -/
def pyStrip (s : PyStr) : PyStr :=
  ((s.dropWhile pyIsSpace).reverse.dropWhile pyIsSpace).reverse

/-- ASCII decimal digit; models `\d` and `str.isdigit` (the source is only
exercised on ASCII digits; Unicode digit classes are outside the model). -/
def isDigitA (c : Char) : Bool := (48 ≤ c.toNat && c.toNat ≤ 57)

/-- ASCII uppercase letter; models `str.isupper` of a single character and
the class `[A-Z]` (exact on ASCII, the only case the theorems exercise). -/
def isUpperA (c : Char) : Bool := (65 ≤ c.toNat && c.toNat ≤ 90)

/-- ASCII lowercase letter, the class `[a-z]`. -/
def isLowerA (c : Char) : Bool := (97 ≤ c.toNat && c.toNat ≤ 122)

/-- ASCII letter. -/
def isAlphaA (c : Char) : Bool := isUpperA c || isLowerA c

/-- ASCII alphanumeric. -/
def isAlnumA (c : Char) : Bool := isAlphaA c || isDigitA c

/-- Hexadecimal digit of the class `[0-9a-fA-F]`. -/
def isHexA (c : Char) : Bool :=
  isDigitA c || (97 ≤ c.toNat && c.toNat ≤ 102)
    || (65 ≤ c.toNat && c.toNat ≤ 70)

/-- Value of one hexadecimal digit. -/
def hexVal (c : Char) : Nat :=
  if isDigitA c then c.toNat - 48
  else if 97 ≤ c.toNat && c.toNat ≤ 102 then c.toNat - 87
  else c.toNat - 55

/-- The Python word class `\w`: ASCII alphanumerics and underscore; code
points at and above 0x80 are counted as word characters (Python consults
the Unicode tables there; every theorem below exercises ASCII only, where
this predicate is exact). -/
def pyWord (c : Char) : Bool := isAlnumA c || c = '_' || c.toNat ≥ 0x80

/-- Substring containment, Python `sub in s` (an empty `sub` is contained
in everything, as in Python). -/
def containsSub (s sub : PyStr) : Bool :=
  sub.isPrefixOf s ||
    match s with
    | [] => false
    | _ :: t => containsSub t sub

/-- Membership of a single character, Python `c in s`. -/
def containsC (s : PyStr) (c : Char) : Bool := s.contains c

/-- Shape of the digit part accepted by Python `int(_, 16)` after sign and
prefix handling: a nonempty run of hexadecimal digits with single
underscores allowed only between digits.  The flag records whether the
previous character was an underscore (or the start, where an underscore is
also illegal). -/
def hexRun (l : PyStr) (afterUnderscore : Bool) : Bool :=
  match l with
  | [] => !afterUnderscore
  | c :: r =>
      if c = '_' then
        if afterUnderscore then false else hexRun r true
      else if isHexA c then hexRun r false
      else false

/-- Numeric value of a run of hexadecimal digits. -/
def hexValOf (l : PyStr) : Nat := l.foldl (fun a c => a * 16 + hexVal c) 0

/-- Sign handling of a Python `int` literal: the flag is whether the value
is negated. -/
def stripSign : PyStr → (Bool × PyStr)
  | '+' :: r => (false, r)
  | '-' :: r => (true, r)
  | r => (false, r)

/-- The optional `0x`/`0X` prefix of a base-16 numeral, with an optional
single underscore directly after it. -/
def stripHex0x : PyStr → PyStr
  | '0' :: x :: r =>
      if x = 'x' || x = 'X' then
        match r with
        | '_' :: r2 => r2
        | _ => r
      else '0' :: x :: r
  | r => r

/-- Python `int(text, 16)` restricted to success/value: strips surrounding
whitespace, then an optional sign, an optional `0x`/`0X` prefix (with an
optional single underscore directly after it), then hexadecimal digits
separated by optional single underscores.  Returns `none` where Python
raises `ValueError`. -/
def pyInt16 (s : PyStr) : Option Int :=
  let (neg, t1) := stripSign (pyStrip s)
  let t2 := stripHex0x t1
  if hexRun t2 true then
    let n := hexValOf (t2.filter (fun c => c ≠ '_'))
    some (if neg then -(n : Int) else (n : Int))
  else none

/-- Python `chr(n)`: defined for 0 ≤ n ≤ 0x10FFFF, a `ValueError`
(`none`) otherwise.  Code points are represented through `Char.ofNat`; a
lone surrogate (which Lean `Char` cannot carry) is the one unfaithful
corner, unreachable from the theorems below. -/
def pyChr (n : Int) : Option Char :=
  if 0 ≤ n && n ≤ 0x10FFFF then some (Char.ofNat n.toNat) else none

/-- Escape-character mapping of the `_unescape` loop (the `elif` chain of
lines 50–63): control characters for `b f n r t`, the URI-mode `#` with its
backslash preserved, any other escaped character stands for itself. -/
def escMap (esc : Char) (uri : Bool) (tail : PyStr) : PyStr :=
  if esc = 'b' then '\x08' :: tail
  else if esc = 'f' then '\x0c' :: tail
  else if esc = 'n' then '\n' :: tail
  else if esc = 'r' then '\r' :: tail
  else if esc = 't' then '\t' :: tail
  else if uri && esc = '#' then '\\' :: '#' :: tail
  else esc :: tail

/-- The `\u`/`\U` step of the `_unescape` loop: `int(s[i+2:i+6], 16)`
then `chr`, either raising (`none`); the decoded character is prepended
to the rest of the scan. -/
def hexEscStep (h1 h2 h3 h4 : Char) (tail : Option PyStr) : Option PyStr :=
  match pyInt16 [h1, h2, h3, h4] with
  | none => none
  | some n =>
      match pyChr n with
      | none => none
      | some c => tail.map (fun t => c :: t)

/-- Loop body of `_unescape` (fast_zincparser.py lines 41–68), as a
structural recursion over the remaining code points; `none` models a
raised exception.  The source advances its index by 6 for `\u`/`\U` with
at least four following characters (realised here by the six-element
pattern); it advances by 2 for every other escape (including `\u` with
fewer than four characters left, whose condition `i + 5 < len(s)` fails),
and by 1 otherwise; a trailing lone backslash is copied verbatim
(`i + 1 < len(s)` fails, so the final catch-all pattern applies). -/
def unescapeL (s : PyStr) (uri : Bool) : Option PyStr :=
  match s with
  | [] => some []
  | '\\' :: esc :: h1 :: h2 :: h3 :: h4 :: rest2 =>
      if esc = 'u' || esc = 'U' then
        hexEscStep h1 h2 h3 h4 (unescapeL rest2 uri)
      else
        (unescapeL (h1 :: h2 :: h3 :: h4 :: rest2) uri).map (escMap esc uri)
  | '\\' :: esc :: rest => (unescapeL rest uri).map (escMap esc uri)
  | c :: rest => (unescapeL rest uri).map (fun tail => c :: tail)

/-- Model of `_unescape` (fast_zincparser.py lines 36–68): identity when no
backslash occurs, otherwise the scan `unescapeL`. -/
def pyUnescape (s : PyStr) (uri : Bool) : Except Unit PyStr :=
  if containsC s '\\' then
    match unescapeL s uri with
    | some t => .ok t
    | none => .error ()
  else .ok s

example : pyUnescape (pystr "abc") false = .ok (pystr "abc") := by rfl
example : pyUnescape (pystr "a\\nb") false = .ok (pystr "a\nb") := by rfl
example : pyUnescape (pystr "\\u0041") false = .ok (pystr "A") := by rfl
example : pyUnescape (pystr "\\uZZZZ") false = .error () := by rfl
example : pyUnescape (pystr "\\#a") true = .ok (pystr "\\#a") := by rfl
example : pyUnescape (pystr "\\#a") false = .ok (pystr "#a") := by rfl
example : pyUnescape (pystr "a\\") false = .ok (pystr "a\\") := by rfl
example : pyUnescape (pystr "\\u12") false = .ok (pystr "u12") := by rfl

/-- ASCII lowercasing, for the case-insensitive spellings `float` accepts. -/
def asciiLower (c : Char) : Char :=
  if isUpperA c then Char.ofNat (c.toNat + 32) else c

/-- Run of characters accepted by a predicate with single underscores
allowed only between two accepted characters (the underscore rule of
Python numeric strings); the flag records whether an underscore (or the
start) immediately precedes. -/
def runU (p : Char → Bool) (l : PyStr) (afterUnderscore : Bool) : Bool :=
  match l with
  | [] => !afterUnderscore
  | c :: r =>
      if c = '_' then
        if afterUnderscore then false else runU p r true
      else if p c then runU p r false
      else false

/-- Nonempty decimal-digit run with legal underscores. -/
def digitRunOk (l : PyStr) : Bool := runU isDigitA l true

/-- Python `float(text)` acceptance: surrounding whitespace stripped, an
optional sign, then `inf`/`infinity`/`nan` case-insensitively, or a decimal
mantissa (integer part and/or fraction, each a digit run with legal
underscores, at least one of them present) with an optional exponent.
`true` exactly where `float` succeeds, `false` where it raises. -/
def pyFloatOk (s : PyStr) : Bool :=
  let t := pyStrip s
  let t :=
    match t with
    | '+' :: r => r
    | '-' :: r => r
    | r => r
  let low := t.map asciiLower
  if low = pystr "inf" || low = pystr "infinity" || low = pystr "nan" then
    true
  else
    let isMC : Char → Bool := fun c => isDigitA c || c = '_'
    let ip := t.takeWhile isMC
    let r2 := t.drop ip.length
    let (fp, r4, hasDot) :=
      match r2 with
      | '.' :: r3 => (r3.takeWhile isMC, (r3.drop (r3.takeWhile isMC).length), true)
      | _ => ([], r2, false)
    let mantOk :=
      if hasDot then
        (ip.isEmpty || digitRunOk ip) && (fp.isEmpty || digitRunOk fp)
          && !(ip.isEmpty && fp.isEmpty)
      else digitRunOk ip
    let expOk :=
      match r4 with
      | [] => true
      | e :: r5 =>
          if e = 'e' || e = 'E' then
            let r6 :=
              match r5 with
              | '+' :: r6 => r6
              | '-' :: r6 => r6
              | r6 => r6
            !r6.isEmpty && digitRunOk r6
          else false
    mantOk && expOk

example : pyFloatOk (pystr "1.5") = true := by rfl
example : pyFloatOk (pystr " -12e3 ") = true := by rfl
example : pyFloatOk (pystr "1_0.5") = true := by rfl
example : pyFloatOk (pystr ".5") = true := by rfl
example : pyFloatOk (pystr "1.") = true := by rfl
example : pyFloatOk (pystr "INF") = true := by rfl
example : pyFloatOk (pystr "a") = false := by rfl
example : pyFloatOk (pystr "1_.5") = false := by rfl
example : pyFloatOk (pystr "") = false := by rfl
example : pyFloatOk (pystr "1e") = false := by rfl

/-- Gregorian leap year, as used by `datetime.date`. -/
def isLeap (y : Nat) : Bool := y % 4 = 0 && (y % 100 ≠ 0 || y % 400 = 0)

/-- Days of a month in the proleptic Gregorian calendar of `datetime`. -/
def daysInMonth (y m : Nat) : Nat :=
  if m = 2 then (if isLeap y then 29 else 28)
  else if m = 4 || m = 6 || m = 9 || m = 11 then 30
  else 31

/-- Validity of a calendar date for the `datetime.date` constructor
(year 1–9999; the matched text has four year digits, so only the lower
bound matters). -/
def dateValid (y m d : Nat) : Bool :=
  1 ≤ y && 1 ≤ m && m ≤ 12 && 1 ≤ d && d ≤ daysInMonth y m

/-- Validity of a time of day for the `datetime.time` constructor. -/
def timeValid (h mi s : Nat) : Bool := h ≤ 23 && mi ≤ 59 && s ≤ 59

/-- Numeric value of a run of decimal digits. -/
def natOf (l : PyStr) : Nat := l.foldl (fun a c => a * 10 + (c.toNat - 48)) 0

/-- Matcher for `VERSION_RE = ^ver:"([^"]+)"` under `re.match`: the literal
prefix, then a nonempty group of non-quote characters (which, being unable
to cross a quote, is exactly the text up to the first closing quote), then
the quote.  Returns the group and the text after the match. -/
def versionMatch (l : PyStr) : Option (PyStr × PyStr) :=
  match l with
  | 'v' :: 'e' :: 'r' :: ':' :: '"' :: r =>
      let g := r.takeWhile (fun c => c ≠ '"')
      match r.drop g.length with
      | '"' :: rest => if g.isEmpty then none else some (g, rest)
      | _ => none
  | _ => none

/-- Matcher for `COORD_RE = C\(([^,]+),([^)]+)\)` under `re.match`: both
groups are the nonempty text up to the first comma resp. first closing
paren (neither class can cross its delimiter, so the greedy match is
deterministic); trailing text is ignored. -/
def coordMatch (l : PyStr) : Option (PyStr × PyStr) :=
  match l with
  | 'C' :: '(' :: r =>
      let g1 := r.takeWhile (fun c => c ≠ ',')
      match r.drop g1.length with
      | ',' :: r2 =>
          let g2 := r2.takeWhile (fun c => c ≠ ')')
          match r2.drop g2.length with
          | ')' :: _ => if g1.isEmpty || g2.isEmpty then none else some (g1, g2)
          | _ => none
      | _ => none
  | _ => none

/-- Matcher for `REF_RE = @([\w:.\-~]*)(?: "([^"]+)")?` under `re.match`:
after `@` it always succeeds; the id is the maximal run of its class, and
the display group participates only when a space, a quote, nonempty
non-quote text and a closing quote follow (`m.lastindex >= 2` in the
source is then the participation test). -/
def refMatch (l : PyStr) : Option (PyStr × Option PyStr) :=
  match l with
  | '@' :: r =>
      let idp := r.takeWhile
        (fun c => pyWord c || c = ':' || c = '.' || c = '-' || c = '~')
      match r.drop idp.length with
      | ' ' :: '"' :: r3 =>
          let g2 := r3.takeWhile (fun c => c ≠ '"')
          (match r3.drop g2.length with
           | '"' :: _ => if g2.isEmpty then some (idp, none) else some (idp, some g2)
           | _ => some (idp, none))
      | _ => some (idp, none)
  | _ => none

/-- Matcher for `BIN_RE = Bin\(([^\)]*)\)` under `re.match`: the group is
the (possibly empty) text up to the first closing paren, which must
exist; trailing text is ignored. -/
def binMatch (l : PyStr) : Option PyStr :=
  match l with
  | 'B' :: 'i' :: 'n' :: '(' :: r =>
      let g := r.takeWhile (fun c => c ≠ ')')
      match r.drop g.length with
      | ')' :: _ => some g
      | _ => none
  | _ => none

/-- Matcher for `XSTR_RE = (\w+)\("([^"]*)"\)` under `re.match`: a maximal
nonempty word run (a shorter run would be followed by a word character,
never `(`, so greediness is deterministic), then `("`, the possibly empty
non-quote payload, then `")`; trailing text is ignored. -/
def xstrMatch (l : PyStr) : Option (PyStr × PyStr) :=
  let g1 := l.takeWhile pyWord
  if g1.isEmpty then none
  else
    match l.drop g1.length with
    | '(' :: '"' :: r =>
        let g2 := r.takeWhile (fun c => c ≠ '"')
        (match r.drop g2.length with
         | '"' :: ')' :: _ => some (g1, g2)
         | _ => none)
    | _ => none

/-- Matcher for `URI_RE` — backtick, non-backtick content, backtick,
end of string (the pattern is anchored on both sides). -/
def uriMatch (l : PyStr) : Option PyStr :=
  match l with
  | c :: r =>
      if c = btick then
        let g := r.takeWhile (fun x => x ≠ btick)
        match r.drop g.length with
        | [d] => if d = btick then some g else none
        | _ => none
      else none
  | [] => none

/-- Body scanner for `STR_RE`: after the opening quote, the content must be
a sequence of plain characters (neither quote nor backslash), simple escapes
`\[bfnrt\\"$]`, or `\u`/`\U` with exactly four hexadecimal digits, and the
string must end with the closing quote (the pattern is anchored).  The
alternatives are distinguished by their first characters, so the scan is
deterministic.  Returns the raw group-1 content. -/
def strBodyScan (l : PyStr) : Option PyStr :=
  match l with
  | [] => none
  | '"' :: rest => if rest.isEmpty then some [] else none
  | '\\' :: 'u' :: h1 :: h2 :: h3 :: h4 :: rest =>
      if isHexA h1 && isHexA h2 && isHexA h3 && isHexA h4 then
        (strBodyScan rest).map (fun g => '\\' :: 'u' :: h1 :: h2 :: h3 :: h4 :: g)
      else none
  | '\\' :: 'U' :: h1 :: h2 :: h3 :: h4 :: rest =>
      if isHexA h1 && isHexA h2 && isHexA h3 && isHexA h4 then
        (strBodyScan rest).map (fun g => '\\' :: 'U' :: h1 :: h2 :: h3 :: h4 :: g)
      else none
  | '\\' :: c :: rest =>
      if c = 'b' || c = 'f' || c = 'n' || c = 'r' || c = 't' || c = '\\'
          || c = '"' || c = '$' then
        (strBodyScan rest).map (fun g => '\\' :: c :: g)
      else none
  | c :: rest => (strBodyScan rest).map (fun g => c :: g)

/-- Matcher for `STR_RE`: opening quote then `strBodyScan`. -/
def strMatch (l : PyStr) : Option PyStr :=
  match l with
  | '"' :: r => strBodyScan r
  | _ => none

/-- Components matched by `DATETIME_RE`. -/
structure DtParts where
  g1 : PyStr
  y : Nat
  mo : Nat
  d : Nat
  h : Nat
  mi : Nat
  s : Nat
  zoneName : Option PyStr
  deriving DecidableEq, Repr

/-- Matcher for `DATETIME_RE` under `re.match`: the fixed
`\d{4}-\d{2}-\d{2}T\d{2}:\d{2}:\d{2}` head, an optional fraction (taken
only when a digit follows the dot, greedily), an optional `Z` or numeric
offset, and an optional space-plus-word zone name; trailing text is
ignored.  Each optional piece is attempted in order, which is exactly the
backtracking order of the original pattern. -/
def dtMatch (l : PyStr) : Option DtParts :=
  match l with
  | y1 :: y2 :: y3 :: y4 :: '-' :: o1 :: o2 :: '-' :: d1 :: d2 :: 'T'
      :: h1 :: h2 :: ':' :: i1 :: i2 :: ':' :: s1 :: s2 :: rest =>
      if isDigitA y1 && isDigitA y2 && isDigitA y3 && isDigitA y4
          && isDigitA o1 && isDigitA o2 && isDigitA d1 && isDigitA d2
          && isDigitA h1 && isDigitA h2 && isDigitA i1 && isDigitA i2
          && isDigitA s1 && isDigitA s2 then
        let head : PyStr :=
          [y1, y2, y3, y4, '-', o1, o2, '-', d1, d2, 'T',
           h1, h2, ':', i1, i2, ':', s1, s2]
        let (fracPart, rest2) :=
          match rest with
          | '.' :: r3 =>
              let fr := r3.takeWhile isDigitA
              if fr.isEmpty then (([] : PyStr), rest)
              else ('.' :: fr, r3.drop fr.length)
          | _ => ([], rest)
        let (tzPart, rest3) :=
          match rest2 with
          | 'Z' :: r4 => ((['Z'] : PyStr), r4)
          | c :: t1 :: t2 :: ':' :: t3 :: t4 :: r4 =>
              if (c = '+' || c = '-') && isDigitA t1 && isDigitA t2
                  && isDigitA t3 && isDigitA t4 then
                ([c, t1, t2, ':', t3, t4], r4)
              else ([], rest2)
          | _ => ([], rest2)
        let zone :=
          match rest3 with
          | ' ' :: r5 =>
              let w := r5.takeWhile pyWord
              if w.isEmpty then none else some w
          | _ => none
        some { g1 := head ++ fracPart ++ tzPart,
               y := natOf [y1, y2, y3, y4], mo := natOf [o1, o2],
               d := natOf [d1, d2], h := natOf [h1, h2],
               mi := natOf [i1, i2], s := natOf [s1, s2],
               zoneName := zone }
      else none
  | _ => none

/-- Matcher for the fully anchored `DATE_RE = ^\d{4}-\d{2}-\d{2}$`. -/
def dateMatch (l : PyStr) : Option (Nat × Nat × Nat) :=
  match l with
  | [y1, y2, y3, y4, '-', m1, m2, '-', d1, d2] =>
      if isDigitA y1 && isDigitA y2 && isDigitA y3 && isDigitA y4
          && isDigitA m1 && isDigitA m2 && isDigitA d1 && isDigitA d2 then
        some (natOf [y1, y2, y3, y4], natOf [m1, m2], natOf [d1, d2])
      else none
  | _ => none

/-- Matcher for the fully anchored
`TIME_RE = ^(\d{2}:\d{2}:\d{2}(?:\.\d+)?)$`; returns the numeric fields and
the fraction digits (empty when absent). -/
def timeMatch (l : PyStr) : Option (Nat × Nat × Nat × PyStr) :=
  match l with
  | h1 :: h2 :: ':' :: m1 :: m2 :: ':' :: s1 :: s2 :: rest =>
      if isDigitA h1 && isDigitA h2 && isDigitA m1 && isDigitA m2
          && isDigitA s1 && isDigitA s2 then
        match rest with
        | [] => some (natOf [h1, h2], natOf [m1, m2], natOf [s1, s2], [])
        | '.' :: fr =>
            if !fr.isEmpty && fr.all isDigitA then
              some (natOf [h1, h2], natOf [m1, m2], natOf [s1, s2], fr)
            else none
        | _ => none
      else none
  | _ => none

/-- Maximal prefix of the shape `(?:\d+_)*\d+`: digits with single
underscores strictly between digits.  Called on input whose head is a
digit; consumes an underscore only when a digit follows it, which is
exactly what the greedy pattern keeps after backtracking.  Returns the
prefix and the remainder. -/
def numTake (l : PyStr) : PyStr × PyStr :=
  match l with
  | [] => ([], [])
  | '_' :: c2 :: r =>
      if isDigitA c2 then
        let (p, rest) := numTake (c2 :: r)
        ('_' :: p, rest)
      else ([], '_' :: c2 :: r)
  | c :: r =>
      if isDigitA c then
        let (p, rest) := numTake r
        (c :: p, rest)
      else ([], c :: r)

/-- The unit class `[\w%_/$\u0080-￿]` of `NUMBER_RE` (exact on ASCII;
for code points at and above 0x80 the `\w` member of the union is
approximated as in `pyWord`, and the explicit range caps at 0xFFFF). -/
def unitChar (c : Char) : Bool :=
  (isAlnumA c || c = '_') || c = '%' || c = '/' || c = '$'
  || (0x80 ≤ c.toNat && c.toNat ≤ 0xffff)

/-- Matcher for the fully anchored `NUMBER_RE`: optional sign, the integer
part via `numTake`, an optional plain-digit fraction and exponent, and an
optional nonempty unit suffix within `unitChar` reaching the end of the
string.  Greediness is deterministic here: the unit class is a
suffix-closed test, so if the maximal numeric prefix leaves an illegal
remainder every shorter split does too.  Returns (group 1, unit). -/
def numberMatch (l : PyStr) : Option (PyStr × Option PyStr) :=
  let (sign, r) :=
    match l with
    | '+' :: r => ((['+'] : PyStr), r)
    | '-' :: r => ((['-'] : PyStr), r)
    | r => ([], r)
  match r with
  | c :: _ =>
      if isDigitA c then
        let (ip, r2) := numTake r
        let (fp, r3) :=
          match r2 with
          | '.' :: r3 =>
              let fr := r3.takeWhile isDigitA
              if fr.isEmpty then (([] : PyStr), r2)
              else ('.' :: fr, r3.drop fr.length)
          | _ => ([], r2)
        let (ep, r4) :=
          match r3 with
          | e :: rest =>
              if e = 'e' || e = 'E' then
                match rest with
                | s :: rest2 =>
                    if s = '+' || s = '-' then
                      let ds := rest2.takeWhile isDigitA
                      if ds.isEmpty then (([] : PyStr), r3)
                      else ([e, s] ++ ds, rest2.drop ds.length)
                    else
                      let ds := rest.takeWhile isDigitA
                      if ds.isEmpty then (([] : PyStr), r3)
                      else (e :: ds, rest.drop ds.length)
                | [] => ([], r3)
              else ([], r3)
          | [] => ([], r3)
        if r4.isEmpty then some (sign ++ ip ++ fp ++ ep, none)
        else if r4.all unitChar then some (sign ++ ip ++ fp ++ ep, some r4)
        else none
      else none
  | [] => none

/-- The tag-name rule `^[a-z][a-zA-Z0-9_]*$` (fast_zincparser.py lines 307
and 312). -/
def tagNameOk (l : PyStr) : Bool :=
  match l with
  | [] => false
  | c :: r => isLowerA c && r.all (fun x => isAlnumA x || x = '_')

/-- The column-header heuristic `re.search(r'\s[A-Z][A-Z]+', line)`
(fast_zincparser.py line 371): somewhere a whitespace character followed by
at least two uppercase letters. -/
def colUpperSearch (l : PyStr) : Bool :=
  match l with
  | a :: b :: c :: r =>
      (pyIsSpace a && isUpperA b && isUpperA c) || colUpperSearch (b :: c :: r)
  | _ => false

/-- Tail of the first-line timezone heuristic: an explicit numeric offset
`[+-]\d{2}:\d{2}`, one or more whitespace characters, an uppercase letter
and at least one further `[a-zA-Z_]` character. -/
def tzOffsetZonePat (l : PyStr) : Bool :=
  match l with
  | c :: t1 :: t2 :: ':' :: t3 :: t4 :: r =>
      if (c = '+' || c = '-') && isDigitA t1 && isDigitA t2
          && isDigitA t3 && isDigitA t4 then
        let sp := r.takeWhile pyIsSpace
        !sp.isEmpty &&
          (match r.drop sp.length with
           | u :: w :: _ => isUpperA u && (isAlphaA w || w = '_')
           | _ => false)
      else false
  | _ => false

/-- Middle of the heuristic: any number of non-comma non-newline characters
before `tzOffsetZonePat` (existence over every split, which is what
backtracking search gives). -/
def tzTailScan (l : PyStr) : Bool :=
  tzOffsetZonePat l ||
    match l with
    | c :: r => if c ≠ ',' && c ≠ '\n' then tzTailScan r else false
    | [] => false

/-- The first-line heuristic
`re.search(r'T\d{2}:\d{2}:\d{2}[^,\n]*[+-]\d{2}:\d{2}\s+[A-Z][a-zA-Z_]+', l)`
(fast_zincparser.py line 341), as an existence check over all start
positions. -/
def tzComboSearch (l : PyStr) : Bool :=
  (match l with
   | 'T' :: d1 :: d2 :: ':' :: d3 :: d4 :: ':' :: d5 :: d6 :: r =>
       isDigitA d1 && isDigitA d2 && isDigitA d3 && isDigitA d4
         && isDigitA d5 && isDigitA d6 && tzTailScan r
   | _ => false) ||
    match l with
    | [] => false
    | _ :: t => tzComboSearch t

/-- The row-value introducer test `re.match(r'^[a-zA-Z_]\w*\(', val)`
(fast_zincparser.py line 414): an identifier head, a maximal word run and
an opening paren. -/
def identParen (l : PyStr) : Bool :=
  match l with
  | c :: r =>
      (isAlphaA c || c = '_') &&
        (match r.drop (r.takeWhile pyWord).length with
         | '(' :: _ => true
         | _ => false)
  | [] => false

/-- The scalar union produced by the fast parser.  Floating-point values
(`float(...)` in the source) are represented by the literal the source
passes to `float` — underscores already removed for numbers — so equality
in the model is finer than Python float equality; date and time carry the
validated components, and a datetime carries the matched ISO text plus the
optional zone-name word (the source's zone application, when the external
resolver succeeds, re-expresses the same instant and preserves Python
equality, so the name alone determines the observable value). -/
inductive PyVal where
  | none
  | marker
  | na
  | remove
  | bool (b : Bool)
  | posInf
  | negInf
  | nan
  | num (s : PyStr)
  | quantity (s : PyStr) (unit : PyStr)
  | coord (lat lng : PyStr)
  | ref (id : PyStr) (dis : Option PyStr)
  | bin (mime : PyStr)
  | xstr (tag : PyStr) (payload : PyStr)
  | uri (s : PyStr)
  | str (s : PyStr)
  | datetime (dt : PyStr) (zone : Option PyStr)
  | date (y : Nat) (m : Nat) (d : Nat)
  | time (h : Nat) (mi : Nat) (s : Nat) (frac : PyStr)
  deriving DecidableEq, Repr

/-- Python `str.endswith` for a single character. -/
def endsC (l : PyStr) (c : Char) : Bool := l.getLast? = some c

/-- The complex-type prefixes `_parse_scalar` rejects (line 79): `[`, the
opening brace, or `<<`. -/
def startsComplex (v : PyStr) : Bool :=
  (pystr "[").isPrefixOf v || [obrace].isPrefixOf v
    || (pystr "<<").isPrefixOf v

/-- The literal singleton and special-number tokens of lines 83–102. -/
def isSingletonTok (v : PyStr) : Bool :=
  v = pystr "M" || v = pystr "N" || v = pystr "NA" || v = pystr "R"
    || v = pystr "T" || v = pystr "F" || v = pystr "INF"
    || v = pystr "-INF" || v = pystr "NaN"

/-- Whether an `Except` is the error case. -/
def isErrE {α : Type} (e : Except Unit α) : Bool :=
  match e with
  | .error _ => true
  | .ok _ => false

/-- Coordinate rule (lines 104–108): guard `startswith('C(')`, then
`COORD_RE`; on a match the two groups go through `float`, which raises on
a non-numeric payload. -/
def ruleCoord (v : PyStr) : Option (Except Unit PyVal) :=
  if (pystr "C(").isPrefixOf v then
    match coordMatch v with
    | some (g1, g2) =>
        some (if pyFloatOk g1 && pyFloatOk g2 then .ok (.coord g1 g2) else .error ())
    | Option.none => Option.none
  else Option.none

/-- Reference rule (lines 110–116): guard `startswith('@')`; `REF_RE` then
always matches, so no `@`-token ever falls through or raises. -/
def ruleRef (v : PyStr) : Option (Except Unit PyVal) :=
  match v with
  | '@' :: _ =>
      match refMatch v with
      | some (idp, dis) => some (.ok (.ref idp dis))
      | Option.none => Option.none
  | _ => Option.none

/-- Bin rule (lines 118–122). -/
def ruleBin (v : PyStr) : Option (Except Unit PyVal) :=
  if (pystr "Bin(").isPrefixOf v then
    match binMatch v with
    | some g => some (.ok (.bin g))
    | Option.none => Option.none
  else Option.none

/-- XStr rule (lines 124–128): guard `'(' in value and value.endswith(')')
and not value.startswith('C(')`, then `XSTR_RE`; the payload goes through
`_unescape`, which can raise on a malformed `\u` escape. -/
def ruleXstr (v : PyStr) : Option (Except Unit PyVal) :=
  if containsC v '(' && endsC v ')' && !(pystr "C(").isPrefixOf v then
    match xstrMatch v with
    | some (g1, g2) =>
        some (match pyUnescape g2 false with
              | .error _ => .error ()
              | .ok u => .ok (.xstr g1 u))
    | Option.none => Option.none
  else Option.none

/-- Uri rule (lines 130–134): `_unescape` in URI mode can raise. -/
def ruleUri (v : PyStr) : Option (Except Unit PyVal) :=
  match v with
  | c :: _ =>
      if c = btick then
        match uriMatch v with
        | some g =>
            some (match pyUnescape g true with
                  | .error _ => .error ()
                  | .ok u => .ok (.uri u))
        | Option.none => Option.none
      else Option.none
  | [] => Option.none

/-- String rule (lines 136–140): the `STR_RE` character class only admits
escapes `_unescape` decodes without error. -/
def ruleStr (v : PyStr) : Option (Except Unit PyVal) :=
  match v with
  | '"' :: _ =>
      match strMatch v with
      | some g =>
          some (match pyUnescape g false with
                | .error _ => .error ()
                | .ok u => .ok (.str u))
      | Option.none => Option.none
  | _ => Option.none

/-- DateTime rule (lines 142–157): guard `'T' in value` with a digit or
minus head; on a `DATETIME_RE` match, `iso8601.parse_date` raises exactly
on out-of-range calendar or clock components (modelled by `dateValid` and
`timeValid`; the iso8601 release used by the package does not range-check
the numeric offset, and the zone-name application is wrapped in a
`try/except` that silently keeps the offset-based instant). -/
def ruleDt (v : PyStr) : Option (Except Unit PyVal) :=
  match v with
  | c :: _ =>
      if containsC v 'T' && (isDigitA c || c = '-') then
        match dtMatch v with
        | some p =>
            some (if dateValid p.y p.mo p.d && timeValid p.h p.mi p.s then
                    .ok (.datetime p.g1 p.zoneName)
                  else .error ())
        | Option.none => Option.none
      else Option.none
  | [] => Option.none

/-- Date rule (lines 159–161): `strptime('%Y-%m-%d')` raises exactly on an
invalid calendar date. -/
def ruleDate (v : PyStr) : Option (Except Unit PyVal) :=
  match dateMatch v with
  | some (y, m, d) =>
      some (if dateValid y m d then .ok (.date y m d) else .error ())
  | Option.none => Option.none

/-- Time rule (lines 163–168): `strptime` raises on out-of-range fields and
on a fraction longer than the six digits `%f` accepts. -/
def ruleTime (v : PyStr) : Option (Except Unit PyVal) :=
  match timeMatch v with
  | some (h, mi, s, fr) =>
      some (if timeValid h mi s && (fr.isEmpty || fr.length ≤ 6) then
              .ok (.time h mi s fr)
            else .error ())
  | Option.none => Option.none

/-- Number rule (lines 170–178): `float` cannot fail on `NUMBER_RE`'s
group 1 after underscores are removed, so the rule never raises. -/
def ruleNum (v : PyStr) : Option (Except Unit PyVal) :=
  match numberMatch v with
  | some (g1, unit) =>
      let ns := g1.filter (fun c => c ≠ '_')
      some (match unit with
            | Option.none => .ok (.num ns)
            | some u => .ok (.quantity ns u))
  | Option.none => Option.none

/-- The ordered rule chain of `_parse_scalar` after the singleton
literals (lines 104–180): each guarded rule is tried in source order with
fall-through on a failed guard or match, ending in the opaque string
pass-through of the stripped token. -/
def scalarRules (v : PyStr) : Except Unit PyVal :=
  match ruleCoord v with
  | some r => r
  | Option.none =>
  match ruleRef v with
  | some r => r
  | Option.none =>
  match ruleBin v with
  | some r => r
  | Option.none =>
  match ruleXstr v with
  | some r => r
  | Option.none =>
  match ruleUri v with
  | some r => r
  | Option.none =>
  match ruleStr v with
  | some r => r
  | Option.none =>
  match ruleDt v with
  | some r => r
  | Option.none =>
  match ruleDate v with
  | some r => r
  | Option.none =>
  match ruleTime v with
  | some r => r
  | Option.none =>
  match ruleNum v with
  | some r => r
  | Option.none => .ok (.str v)

/-- Model of `_parse_scalar` (fast_zincparser.py lines 71–180): strip, the
empty and complex-prefix checks, the singleton literals, then the ordered
rule chain with fall-through on a failed guard or match, and the final
opaque pass-through of the stripped token. -/
def pyParseScalar (value0 : PyStr) : Except Unit PyVal :=
  let v := pyStrip value0
  if v.isEmpty then .ok .none
  else if startsComplex v then .error ()
  else if v = pystr "M" then .ok .marker
  else if v = pystr "N" then .ok .none
  else if v = pystr "NA" then .ok .na
  else if v = pystr "R" then .ok .remove
  else if v = pystr "T" then .ok (.bool true)
  else if v = pystr "F" then .ok (.bool false)
  else if v = pystr "INF" then .ok .posInf
  else if v = pystr "-INF" then .ok .negInf
  else if v = pystr "NaN" then .ok .nan
  else scalarRules v

example : pyParseScalar (pystr "M") = .ok .marker := by rfl
example : pyParseScalar (pystr "12.5kWh")
    = .ok (.quantity (pystr "12.5") (pystr "kWh")) := by rfl
example : pyParseScalar (pystr "1_000") = .ok (.num (pystr "1000")) := by rfl
example : pyParseScalar (pystr "C(37.5,-122.3)")
    = .ok (.coord (pystr "37.5") (pystr "-122.3")) := by rfl
example : pyParseScalar (pystr "@foo.bar \"Label\"")
    = .ok (.ref (pystr "foo.bar") (some (pystr "Label"))) := by rfl
example : pyParseScalar (pystr "@foo") = .ok (.ref (pystr "foo") Option.none) := by rfl
example : pyParseScalar (pystr "\"hi\"") = .ok (.str (pystr "hi")) := by rfl
example : pyParseScalar (pystr "2020-02-29")
    = .ok (.date 2020 2 29) := by rfl
example : pyParseScalar (pystr "2020-99-99") = .error () := by rfl
example : pyParseScalar (pystr "hello") = .ok (.str (pystr "hello")) := by rfl
example : pyParseScalar (pystr "2020-01-02T03:04:05Z")
    = .ok (.datetime (pystr "2020-01-02T03:04:05Z") Option.none) := by rfl
example : pyParseScalar (pystr "C(a,b)") = .error () := by rfl

/-- Modelled from the spec: the ordered mapping used for metadata and rows.
The repository's `SortableDict` (and the insertion-ordered Python `dict`
used for row data) are collaborator code not present here; per the spec
(§9) it is an order-preserving mapping where overwriting keeps the original
position.  Represented as an association list with in-place overwrite. -/
abbrev PyDict := List (PyStr × PyVal)

/-- Update of the ordered mapping: overwrite in place, else append. -/
def dictSet (d : PyDict) (k : PyStr) (v : PyVal) : PyDict :=
  match d with
  | [] => [(k, v)]
  | (k2, v2) :: rest =>
      if k2 = k then (k, v) :: rest else (k2, v2) :: dictSet rest k v

/-- Keys of the ordered mapping, in order. -/
def dictKeys (d : PyDict) : List PyStr := d.map Prod.fst

/-- An item produced by the `_parse_meta` tokenising loop: a bare tag or a
`key:value` pair (the source appends a plain string or a 2-tuple to
`items`). -/
inductive MetaItem where
  | bare (s : PyStr)
  | kv (k : PyStr) (v : PyStr)
  deriving DecidableEq, Repr

/-- Name a metadata item is validated under. -/
def MetaItem.name : MetaItem → PyStr
  | .bare s => s
  | .kv k _ => k

/-- Scanner state of the `_parse_meta` loop (fast_zincparser.py lines
246–292): accumulated items, the pending `current_key` (Python `None`
versus a possibly empty string — an empty string is *falsy* at flush time
but blocks further `:` recognition), the pending value characters and the
quote/uri/escape trackers. -/
structure MetaState where
  items : List MetaItem
  key : Option PyStr
  current : PyStr
  in_quote : Bool
  in_uri : Bool
  escape_next : Bool
  deriving DecidableEq, Repr

/-- One step of the `_parse_meta` scanner, mirroring the branch order of
the source: pending escape, backslash, quote toggle, backtick toggle, the
`:` separator (only outside quote and uri and only while `current_key is
None`), the item-separating space (flushing a nonempty value as a pair
when the key is truthy, as a bare tag otherwise), else accumulate. -/
def stepMeta (st : MetaState) (c : Char) : MetaState :=
  if st.escape_next then
    { st with current := st.current ++ [c], escape_next := false }
  else if c = '\\' then
    { st with current := st.current ++ [c], escape_next := true }
  else if c = '"' && !st.in_uri then
    { st with in_quote := !st.in_quote, current := st.current ++ [c] }
  else if c = btick && !st.in_quote then
    { st with in_uri := !st.in_uri, current := st.current ++ [c] }
  else if c = ':' && !st.in_quote && !st.in_uri && st.key = Option.none then
    { st with key := some (pyStrip st.current), current := [] }
  else if c = ' ' && !st.in_quote && !st.in_uri then
    let val := pyStrip st.current
    if !val.isEmpty then
      match st.key with
      | some k =>
          if !k.isEmpty then
            { st with items := st.items ++ [.kv k val], key := Option.none,
                      current := [] }
          else { st with items := st.items ++ [.bare val], current := [] }
      | Option.none => { st with items := st.items ++ [.bare val], current := [] }
    else { st with current := [] }
  else { st with current := st.current ++ [c] }

/-- Flush of the last item after the scanner loop (lines 294–300), with the
same truthiness tests as the space branch. -/
def metaFinish (st : MetaState) : List MetaItem :=
  let val := pyStrip st.current
  if !val.isEmpty then
    match st.key with
    | some k =>
        if !k.isEmpty then st.items ++ [.kv k val]
        else st.items ++ [.bare val]
    | Option.none => st.items ++ [.bare val]
  else st.items

/-- Initial scanner state. -/
def metaInit : MetaState :=
  { items := [], key := Option.none, current := [], in_quote := false,
    in_uri := false, escape_next := false }

/-- The item list the `_parse_meta` loop produces for a metadata string. -/
def metaItems (s : PyStr) : List MetaItem := metaFinish (s.foldl stepMeta metaInit)

/-- Conversion loop of `_parse_meta` (lines 302–314): validate each tag
name against `^[a-z][a-zA-Z0-9_]*$`, raising on a violation; a pair's
value is scalar-decoded (which can itself raise), a bare tag maps to the
Marker singleton. -/
def convertItems (items : List MetaItem) (meta : PyDict) : Except Unit PyDict :=
  match items with
  | [] => .ok meta
  | .kv k v :: rest =>
      if tagNameOk k then
        match pyParseScalar v with
        | .error _ => .error ()
        | .ok pv => convertItems rest (dictSet meta k pv)
      else .error ()
  | .bare t :: rest =>
      if tagNameOk t then convertItems rest (dictSet meta t .marker)
      else .error ()

/-- Model of `_parse_meta` (fast_zincparser.py lines 234–316): empty input
gives an empty mapping; an uppercase first character raises immediately;
otherwise tokenise and convert. -/
def pyParseMeta (s : PyStr) : Except Unit PyDict :=
  match s with
  | [] => .ok []
  | c :: _ =>
      if isUpperA c then .error () else convertItems (metaItems s) []

example : pyParseMeta (pystr "foo") = .ok [(pystr "foo", .marker)] := by rfl
example : pyParseMeta (pystr "foo:5") = .ok [(pystr "foo", .num (pystr "5"))] := by rfl
example : pyParseMeta (pystr "Foo") = .error () := by rfl
example : pyParseMeta (pystr "a b:\"x y\"")
    = .ok [(pystr "a", .marker), (pystr "b", .str (pystr "x y"))] := by rfl
example : metaItems (pystr "a\"b\":c")
    = [.kv (pystr "a\"b\"") (pystr "c")] := by rfl

/-- Scanner state of `_split_csv_values` (fast_zincparser.py lines
183–231). -/
structure CsvState where
  values : List PyStr
  current : PyStr
  in_string : Bool
  in_uri : Bool
  escape_next : Bool
  paren : Int
  deriving DecidableEq, Repr

/-- Initial splitter state. -/
def csvInit : CsvState :=
  { values := [], current := [], in_string := false, in_uri := false,
    escape_next := false, paren := 0 }

/-- One step of the field splitter, in the branch order of the source:
pending escape, backslash inside quote or uri, quote toggle, backtick
toggle, paren tracking outside quote and uri, the separating comma (only
outside quote and uri at depth zero, flushing the stripped field), else
accumulate. -/
def stepCsv (st : CsvState) (c : Char) : CsvState :=
  if st.escape_next then
    { st with current := st.current ++ [c], escape_next := false }
  else if c = '\\' && (st.in_string || st.in_uri) then
    { st with current := st.current ++ [c], escape_next := true }
  else if c = '"' && !st.in_uri then
    { st with in_string := !st.in_string, current := st.current ++ [c] }
  else if c = btick && !st.in_string then
    { st with in_uri := !st.in_uri, current := st.current ++ [c] }
  else if c = '(' && !st.in_string && !st.in_uri then
    { st with paren := st.paren + 1, current := st.current ++ [c] }
  else if c = ')' && !st.in_string && !st.in_uri then
    { st with paren := st.paren - 1, current := st.current ++ [c] }
  else if c = ',' && !st.in_string && !st.in_uri && st.paren = 0 then
    { st with values := st.values ++ [pyStrip st.current], current := [] }
  else { st with current := st.current ++ [c] }

/-- Model of `_split_csv_values`: run the scanner, then flush the last
field when characters remain or the line ends with a comma. -/
def splitCsv (line : PyStr) : List PyStr :=
  let st := line.foldl stepCsv csvInit
  if !st.current.isEmpty || (!line.isEmpty && line.getLast? = some ',') then
    st.values ++ [pyStrip st.current]
  else st.values

example : splitCsv (pystr "a,\"b,c\",d")
    = [pystr "a", pystr "\"b,c\"", pystr "d"] := by rfl
example : splitCsv (pystr "a,") = [pystr "a", []] := by rfl
example : splitCsv (pystr ",") = [[], []] := by rfl
example : splitCsv (pystr "") = [] := by rfl
example : splitCsv (pystr " a , C(1, 2) ")
    = [pystr "a", pystr "C(1, 2)"] := by rfl

/-- Modelled from the spec: the grid container.  The repository's `Grid`
and `Version` classes live in collaborator modules not present here; per
the spec (§3, §6) a grid is a version tag plus ordered metadata, an
ordered column list and an ordered row list, with the version carried
separately from the metadata.  The version is represented by the quoted
text of the version line. -/
structure Grid where
  version : PyStr
  metadata : PyDict
  columns : List (PyStr × PyDict)
  rows : List PyDict
  deriving DecidableEq, Repr

/-- Python `text.split(sep)` for a one-character separator. -/
def pySplit (s : PyStr) (sep : Char) : List PyStr :=
  match s with
  | [] => [[]]
  | c :: r =>
      let rest := pySplit r sep
      if c = sep then [] :: rest
      else
        match rest with
        | h :: t => (c :: h) :: t
        | [] => [[c]]

example : pySplit (pystr "a\nb\n") '\n' = [pystr "a", pystr "b", []] := by rfl
example : pySplit (pystr "") '\n' = [[]] := by rfl

/-- Column-field handling of `parse_grid_fast` (lines 377–387): strip the
field, and when it contains a space split once on it, parsing the rest as
column metadata (which can raise); otherwise the field is the bare column
name with empty metadata. -/
def buildColumn (colStr0 : PyStr) : Except Unit (PyStr × PyDict) :=
  let colStr := pyStrip colStr0
  if containsC colStr ' ' then
    let name := colStr.takeWhile (fun c => c ≠ ' ')
    let metaStr := (colStr.drop name.length).drop 1
    match pyParseMeta metaStr with
    | .error _ => .error ()
    | .ok m => .ok (name, m)
  else .ok (colStr, [])

/-- All column fields, left to right, propagating a raise. -/
def buildColumns (parts : List PyStr) : Except Unit (List (PyStr × PyDict)) :=
  match parts with
  | [] => .ok []
  | p :: rest =>
      match buildColumn p with
      | .error _ => .error ()
      | .ok col =>
          match buildColumns rest with
          | .error _ => .error ()
          | .ok cols => .ok (col :: cols)

/-- The row-value sanity test of lines 410–416: a nonempty stripped field
must start with a recognised introducer character, a digit or a sign, or
be an identifier-paren form or one of the special literals; `true` means
the field passes (no raise). -/
def rowValOk (val0 : PyStr) : Bool :=
  let val := pyStrip val0
  match val with
  | [] => true
  | c :: _ =>
      if !(c = '"' || c = btick || c = '@' || c = 'M' || c = 'N' || c = 'T'
            || c = 'F' || c = 'R' || c = 'C' || c = 'B')
          && !isDigitA c && !(c = '-' || c = '+') then
        identParen val || val = pystr "INF" || val = pystr "-INF"
          || val = pystr "NaN" || val = pystr "NA"
      else true

/-- The per-column loop of lines 423–428: for the i-th declared column
name, decode `values[i]` when the index is in range (always, after
padding) and store it under the name; the `None` branch is the source's
dead else-arm, kept for fidelity. -/
def buildRowGo (names : List PyStr) (i : Nat) (values : List PyStr)
    (acc : PyDict) : Except Unit PyDict :=
  match names with
  | [] => .ok acc
  | name :: rest =>
      if i < values.length then
        match pyParseScalar (values.getD i []) with
        | .error _ => .error ()
        | .ok pv => buildRowGo rest (i + 1) values (dictSet acc name pv)
      else buildRowGo rest (i + 1) values (dictSet acc name .none)

/-- Row construction (lines 418–428): pad the split fields with empty
strings up to the column count, then run the per-column loop. -/
def buildRow (colNames : List PyStr) (values0 : List PyStr) : Except Unit PyDict :=
  let values := values0 ++ List.replicate (colNames.length - values0.length) []
  buildRowGo colNames 0 values []

/-- The row loop of lines 396–431: strip each line, skip blank lines,
raise on an escaped backtick, split the fields, raise when a field fails
the sanity test, build the row and append it preserving source order. -/
def parseRows (colNames : List PyStr) (lines : List PyStr) :
    Except Unit (List PyDict) :=
  match lines with
  | [] => .ok []
  | line0 :: rest =>
      let line := pyStrip line0
      if line.isEmpty then parseRows colNames rest
      else if containsSub line ['\\', btick] then .error ()
      else
        let values := splitCsv line
        if values.all rowValOk then
          match buildRow colNames values with
          | .error _ => .error ()
          | .ok row =>
              match parseRows colNames rest with
              | .error _ => .error ()
              | .ok rows => .ok (row :: rows)
        else .error ()

/-- Model of `parse_grid_fast` (fast_zincparser.py lines 319–433): the
eligibility checks (`<<` or `{` anywhere; `[` in the first 200 characters;
the offset-plus-zone-name heuristic or an escaped backtick on the first
line), then the version line, grid metadata, column header (with the
uppercase heuristic) and the row loop. -/
def parseGridFast (gridStr : PyStr) : Except Unit Grid :=
  if containsSub gridStr (pystr "<<") || containsC gridStr obrace then .error ()
  else if containsC (gridStr.take 200) '[' then .error ()
  else
    let firstLine := gridStr.takeWhile (fun c => c ≠ '\n')
    if tzComboSearch firstLine then .error ()
    else if containsSub firstLine ['\\', btick] then .error ()
    else
      match pySplit gridStr '\n' with
      | [] => .error ()
      | line0 :: restLines =>
          match versionMatch line0 with
          | Option.none => .error ()
          | some (ver, after) =>
              match pyParseMeta (pyStrip after) with
              | .error _ => .error ()
              | .ok gridMeta =>
                  match restLines with
                  | [] => .error ()
                  | colLine :: dataLines =>
                      if colUpperSearch colLine then .error ()
                      else
                        match buildColumns (splitCsv colLine) with
                        | .error _ => .error ()
                        | .ok columns =>
                            match parseRows (columns.map Prod.fst) dataLines with
                            | .error _ => .error ()
                            | .ok rows =>
                                .ok { version := ver, metadata := gridMeta,
                                      columns := columns, rows := rows }

/-- Model of `parse_grid` (fast_zincparser.py lines 436–448): try the fast
parser; on any exception re-parse the whole original text with the
external full-grammar parser (a collaborator not present here, passed as
a parameter) and return its result unchanged — including its own failure,
the only error class the caller can see. -/
def parseGrid (fallback : PyStr → Except Unit Grid) (gridStr : PyStr) :
    Except Unit Grid :=
  match parseGridFast gridStr with
  | .ok g => .ok g
  | .error _ => fallback gridStr

example : parseGridFast (pystr "ver:\"2.0\"\nempty")
    = .ok { version := pystr "2.0", metadata := [],
            columns := [(pystr "empty", [])], rows := [] } := by rfl
example : parseGridFast (pystr "ver:\"3.0\"\na,b,c,d\n1,2\n3")
    = .ok { version := pystr "3.0", metadata := [],
            columns := [(pystr "a", []), (pystr "b", []), (pystr "c", []),
                        (pystr "d", [])],
            rows := [[(pystr "a", .num (pystr "1")),
                      (pystr "b", .num (pystr "2")),
                      (pystr "c", .none), (pystr "d", .none)],
                     [(pystr "a", .num (pystr "3")),
                      (pystr "b", .none), (pystr "c", .none),
                      (pystr "d", .none)]] } := by rfl
example : parseGridFast (pystr "ver:\"3.0\"\na,b\n1,2,3")
    = .ok { version := pystr "3.0", metadata := [],
            columns := [(pystr "a", []), (pystr "b", [])],
            rows := [[(pystr "a", .num (pystr "1")),
                      (pystr "b", .num (pystr "2"))]] } := by rfl
example : parseGridFast (pystr "no version") = .error () := by rfl
example : parseGridFast (pystr "ver:\"2.0\" Foo\na") = .error () := by rfl

/-- Head test of the DateTime guard: first character a digit or minus. -/
def headDM (v : PyStr) : Bool :=
  match v with
  | c :: _ => isDigitA c || c = '-'
  | [] => false

/-- A token that triggers none of the decoding rules of `_parse_scalar`:
no singleton literal, no guarded regex rule matches (for the Reference
rule the guard alone decides, since `REF_RE` matches every `@`-token). -/
def noRule (v : PyStr) : Bool :=
  !isSingletonTok v
  && !((pystr "C(").isPrefixOf v && (coordMatch v).isSome)
  && !(v.head? = some '@')
  && !((pystr "Bin(").isPrefixOf v && (binMatch v).isSome)
  && !(containsC v '(' && endsC v ')' && !(pystr "C(").isPrefixOf v
        && (xstrMatch v).isSome)
  && !(v.head? = some btick && (uriMatch v).isSome)
  && !(v.head? = some '"' && (strMatch v).isSome)
  && !(containsC v 'T' && headDM v && (dtMatch v).isSome)
  && !(dateMatch v).isSome
  && !(timeMatch v).isSome
  && !(numberMatch v).isSome

/-- A Coordinate-shaped token whose payload fails `float`. -/
def badCoord (v : PyStr) : Bool :=
  (pystr "C(").isPrefixOf v &&
    (match coordMatch v with
     | some (g1, g2) => !(pyFloatOk g1 && pyFloatOk g2)
     | Option.none => false)

/-- An XStr-shaped token whose payload has a malformed escape. -/
def badXstrEsc (v : PyStr) : Bool :=
  containsC v '(' && endsC v ')' && !(pystr "C(").isPrefixOf v &&
    (match xstrMatch v with
     | some (_, g2) => isErrE (pyUnescape g2 false)
     | Option.none => false)

/-- A URI-shaped token whose payload has a malformed escape. -/
def badUriEsc (v : PyStr) : Bool :=
  v.head? = some btick &&
    (match uriMatch v with
     | some g => isErrE (pyUnescape g true)
     | Option.none => false)

/-- A DateTime-shaped token with invalid calendar or clock components. -/
def badDt (v : PyStr) : Bool :=
  containsC v 'T' && headDM v &&
    (match dtMatch v with
     | some p => !(dateValid p.y p.mo p.d && timeValid p.h p.mi p.s)
     | Option.none => false)

/-- A Date-shaped token with an invalid calendar date. -/
def badDate (v : PyStr) : Bool :=
  match dateMatch v with
  | some (y, m, d) => !dateValid y m d
  | Option.none => false

/-- A Time-shaped token with invalid fields or an over-long fraction. -/
def badTime (v : PyStr) : Bool :=
  match timeMatch v with
  | some (h, mi, s, fr) => !(timeValid h mi s && (fr.isEmpty || fr.length ≤ 6))
  | Option.none => false

/-- First-occurrence deduplication, the key order an insertion-ordered
mapping acquires when fed a key sequence. -/
def dedupKeys (ks : List PyStr) : List PyStr :=
  ks.foldl (fun a k => if k ∈ a then a else a ++ [k]) []

/-! ### Helper lemmas -/

theorem dropWhile_eq_self_of_head {p : Char → Bool} {l : PyStr}
    (h : ∀ c, l.head? = some c → p c = false) : l.dropWhile p = l := by
  cases l with
  | nil => rfl
  | cons c t => simp [List.dropWhile_cons, h c rfl]

theorem head_false_of_dropWhile {p : Char → Bool} {l : PyStr} {c : Char}
    (h : (l.dropWhile p).head? = some c) : p c = false := by
  have := List.head?_dropWhile_not p l
  rw [h] at this
  exact this

theorem pyStrip_head {l : PyStr} {c : Char}
    (h : (pyStrip l).head? = some c) : pyIsSpace c = false := by
  unfold pyStrip at h
  set a := l.dropWhile pyIsSpace with ha
  set b := a.reverse.dropWhile pyIsSpace with hb
  have hsuf : b <:+ a.reverse := List.dropWhile_suffix pyIsSpace
  obtain ⟨u, hu⟩ := hsuf
  rw [List.head?_reverse] at h
  have hbne : b ≠ [] := by
    intro hnil
    rw [hnil] at h
    simp at h
  have h1 : b.getLast? = a.reverse.getLast? := by
    rw [← hu, List.getLast?_append]
    cases hbl : b.getLast? with
    | none => exact absurd (List.getLast?_eq_none_iff.mp hbl) hbne
    | some x => simp
  rw [h1, List.getLast?_reverse] at h
  exact head_false_of_dropWhile h

theorem pyStrip_last {l : PyStr} {c : Char}
    (h : (pyStrip l).getLast? = some c) : pyIsSpace c = false := by
  unfold pyStrip at h
  rw [List.getLast?_reverse] at h
  exact head_false_of_dropWhile h

theorem pyStrip_idem (l : PyStr) : pyStrip (pyStrip l) = pyStrip l := by
  have h1 : (pyStrip l).dropWhile pyIsSpace = pyStrip l :=
    dropWhile_eq_self_of_head (fun c hc => pyStrip_head hc)
  have h2 : (pyStrip l).reverse.dropWhile pyIsSpace = (pyStrip l).reverse := by
    refine dropWhile_eq_self_of_head (fun c hc => ?_)
    rw [List.head?_reverse] at hc
    exact pyStrip_last hc
  show ((((pyStrip l).dropWhile pyIsSpace).reverse.dropWhile pyIsSpace)).reverse
      = pyStrip l
  rw [h1, h2, List.reverse_reverse]

theorem hex_not_space {c : Char} (h : isHexA c = true) : pyIsSpace c = false := by
  simp only [isHexA, isDigitA, Bool.or_eq_true, Bool.and_eq_true,
    decide_eq_true_eq] at h
  simp only [pyIsSpace, Bool.or_eq_false_iff, decide_eq_false_iff_not,
    Bool.and_eq_false_iff]
  omega

theorem hex_toNat_range {c : Char} (h : isHexA c = true) :
    48 ≤ c.toNat ∧ c.toNat ≤ 102 := by
  simp only [isHexA, isDigitA, Bool.or_eq_true, Bool.and_eq_true,
    decide_eq_true_eq] at h
  omega

theorem hexVal_lt16 {c : Char} (h : isHexA c = true) : hexVal c < 16 := by
  simp only [isHexA, isDigitA, Bool.or_eq_true, Bool.and_eq_true,
    decide_eq_true_eq] at h
  simp only [hexVal, isDigitA]
  split_ifs with h1 h2 <;>
    simp only [Bool.and_eq_true, decide_eq_true_eq] at * <;> omega

theorem char_ne_of_toNat {c : Char} (n : Nat) (h : c.toNat ≠ n)
    (d : Char) (hd : d.toNat = n) : c ≠ d := by
  intro he
  rw [he, hd] at h
  exact h rfl

theorem stripSign_eq {c : Char} (r : PyStr) (h1 : c ≠ '+') (h2 : c ≠ '-') :
    stripSign (c :: r) = (false, c :: r) := by
  unfold stripSign
  split
  next heq => rw [List.cons.injEq] at heq; exact absurd heq.1 h1
  next heq => rw [List.cons.injEq] at heq; exact absurd heq.1 h2
  next => rfl

theorem stripHex0x_eq {c x : Char} (r : PyStr)
    (h : c ≠ '0' ∨ (x ≠ 'x' ∧ x ≠ 'X')) :
    stripHex0x (c :: x :: r) = c :: x :: r := by
  unfold stripHex0x
  split
  next heq =>
    rw [List.cons.injEq] at heq
    obtain ⟨h0, heq2⟩ := heq
    rw [List.cons.injEq] at heq2
    obtain ⟨hx, hr⟩ := heq2
    rcases h with h | ⟨ha, hb⟩
    · exact absurd h0 h
    · subst hx hr h0
      simp [ha, hb]
  next => rfl

theorem pyInt16_hex4 {h1 h2 h3 h4 : Char}
    (e1 : isHexA h1 = true) (e2 : isHexA h2 = true)
    (e3 : isHexA h3 = true) (e4 : isHexA h4 = true) :
    pyInt16 [h1, h2, h3, h4]
        = some ((hexValOf [h1, h2, h3, h4] : Nat) : Int)
      ∧ hexValOf [h1, h2, h3, h4] < 65536 := by
  have r1 := hex_toNat_range e1
  have r2 := hex_toNat_range e2
  have r3 := hex_toNat_range e3
  have r4 := hex_toNat_range e4
  have x1 : ¬(95 ≤ h1.toNat ∧ h1.toNat ≤ 96) := by
    simp only [isHexA, isDigitA, Bool.or_eq_true, Bool.and_eq_true,
      decide_eq_true_eq] at e1
    omega
  have x2 : ¬(88 ≤ h2.toNat ∧ h2.toNat ≤ 96) ∧ h2.toNat ≠ 120 := by
    simp only [isHexA, isDigitA, Bool.or_eq_true, Bool.and_eq_true,
      decide_eq_true_eq] at e2
    omega
  have x3 : h3.toNat ≠ 95 := by
    simp only [isHexA, isDigitA, Bool.or_eq_true, Bool.and_eq_true,
      decide_eq_true_eq] at e3
    omega
  have x4 : h4.toNat ≠ 95 := by
    simp only [isHexA, isDigitA, Bool.or_eq_true, Bool.and_eq_true,
      decide_eq_true_eq] at e4
    omega
  have hs : pyStrip [h1, h2, h3, h4] = [h1, h2, h3, h4] := by
    simp [pyStrip, List.dropWhile_cons, hex_not_space e1, hex_not_space e4]
  have hne1 : h1 ≠ '+' := char_ne_of_toNat 43 (by omega) '+' (by rfl)
  have hne2 : h1 ≠ '-' := char_ne_of_toNat 45 (by omega) '-' (by rfl)
  have hu1 : h1 ≠ '_' := char_ne_of_toNat 95 (by omega) '_' (by rfl)
  have hu2 : h2 ≠ '_' := char_ne_of_toNat 95 (by omega) '_' (by rfl)
  have hu3 : h3 ≠ '_' := char_ne_of_toNat 95 (by omega) '_' (by rfl)
  have hu4 : h4 ≠ '_' := char_ne_of_toNat 95 (by omega) '_' (by rfl)
  have hx2 : h2 ≠ 'x' := char_ne_of_toNat 120 (by omega) 'x' (by rfl)
  have hX2 : h2 ≠ 'X' := char_ne_of_toNat 88 (by omega) 'X' (by rfl)
  have hrun : hexRun [h1, h2, h3, h4] true = true := by
    simp [hexRun, hu1, hu2, hu3, hu4, e1, e2, e3, e4]
  have hfil : List.filter (fun c => decide (c ≠ '_')) [h1, h2, h3, h4]
      = [h1, h2, h3, h4] := by
    simp [List.filter, hu1, hu2, hu3, hu4]
  refine ⟨?_, ?_⟩
  · simp only [pyInt16, hs, stripSign_eq _ hne1 hne2,
      stripHex0x_eq _ (Or.inr ⟨hx2, hX2⟩), hrun, if_true, hfil]
    simp
  · have b1 := hexVal_lt16 e1
    have b2 := hexVal_lt16 e2
    have b3 := hexVal_lt16 e3
    have b4 := hexVal_lt16 e4
    simp only [hexValOf, List.foldl]
    omega

theorem pyChr_of_lt (n : Nat) (h : n < 1114112) :
    pyChr (n : Int) = some (Char.ofNat n) := by
  have h0 : (0 ≤ (n : Int) && (n : Int) ≤ 0x10FFFF) = true := by
    simp only [Bool.and_eq_true, decide_eq_true_eq]
    omega
  simp only [pyChr, h0, if_true]
  simp

theorem unescapeL_hex {esc : Char} (hesc : esc = 'u' ∨ esc = 'U')
    (h1 h2 h3 h4 : Char) (rest : PyStr) (uri : Bool) :
    unescapeL ('\\' :: esc :: h1 :: h2 :: h3 :: h4 :: rest) uri
      = hexEscStep h1 h2 h3 h4 (unescapeL rest uri) := by
  have hb : (esc = 'u' || esc = 'U') = true := by
    rcases hesc with rfl | rfl <;> simp
  rw [unescapeL.eq_def]
  simp only [hb, if_true]

theorem unescapeL_escape (esc : Char) (rest : PyStr) (uri : Bool)
    (h : ¬(esc = 'u' ∨ esc = 'U') ∨ rest.length < 4) :
    unescapeL ('\\' :: esc :: rest) uri
      = (unescapeL rest uri).map (escMap esc uri) := by
  match rest with
  | [] =>
      rw [unescapeL.eq_def]
      rfl
  | [a] =>
      rw [unescapeL.eq_def]
      rfl
  | [a, b] =>
      rw [unescapeL.eq_def]
      rfl
  | [a, b, c] =>
      rw [unescapeL.eq_def]
      rfl

  | a :: b :: c :: d :: r =>
      have hb : (esc = 'u' || esc = 'U') = false := by
        rcases h with h | h
        · simp only [Bool.or_eq_false_iff, decide_eq_false_iff_not]
          exact ⟨fun hu => h (Or.inl hu), fun hU => h (Or.inr hU)⟩
        · simp only [List.length_cons] at h
          omega
      rw [unescapeL.eq_def]
      simp only [hb, Bool.false_eq_true, if_false]

theorem unescapeL_plain (c : Char) (rest : PyStr) (uri : Bool)
    (h : c ≠ '\\') :
    unescapeL (c :: rest) uri
      = (unescapeL rest uri).map (fun tail => c :: tail) := by
  rw [unescapeL.eq_def]
  split
  · rename_i heq
    exact absurd heq (by simp)
  · rename_i esc a b x y r heq
    rw [List.cons.injEq] at heq
    exact absurd heq.1 h
  · rename_i esc r heq hne
    rw [List.cons.injEq] at hne
    exact absurd hne.1 h
  · rename_i c2 r2 hne1 hne2 heq
    rw [List.cons.injEq] at heq
    obtain ⟨hc2, hr2⟩ := heq
    subst hc2 hr2
    rfl

theorem hexEscStep_some {h1 h2 h3 h4 : Char} {nv : Int}
    (hi : pyInt16 [h1, h2, h3, h4] = some nv) {c : Char}
    (hc : pyChr nv = some c) (tail : Option PyStr) :
    hexEscStep h1 h2 h3 h4 tail = tail.map (fun t => c :: t) := by
  rw [hexEscStep.eq_def, hi]
  show (match pyChr nv with
        | none => none
        | some c2 => Option.map (fun t => c2 :: t) tail)
      = Option.map (fun t => c :: t) tail
  rw [hc]

theorem strBody_unescape_ok (n : Nat) : ∀ (r g : PyStr), r.length ≤ n →
    strBodyScan r = some g → ∃ t, unescapeL g false = some t := by
  induction n with
  | zero =>
      intro r g hlen h
      have : r = [] := List.length_eq_zero.mp (Nat.le_zero.mp hlen)
      subst this
      simp [strBodyScan] at h
  | succ n ih =>
      intro r g hlen h
      rw [strBodyScan.eq_def] at h
      split at h
      · exact absurd h (by simp)
      · split at h
        · injection h with h2
          exact ⟨[], by rw [← h2]; rfl⟩
        · exact absurd h (by simp)
      · rename_i h1 h2 h3 h4 rest
        split at h
        · rename_i hhex
          rcases Option.map_eq_some'.mp h with ⟨g2, hg2, hgg⟩
          subst hgg
          simp only [Bool.and_eq_true] at hhex
          obtain ⟨⟨⟨e1, e2⟩, e3⟩, e4⟩ := hhex
          have hlen2 : rest.length ≤ n := by
            simp only [List.length_cons] at hlen
            omega
          obtain ⟨t, ht⟩ := ih rest g2 hlen2 hg2
          obtain ⟨hi, hb⟩ := pyInt16_hex4 e1 e2 e3 e4
          refine ⟨Char.ofNat (hexValOf [h1, h2, h3, h4]) :: t, ?_⟩
          have hc := pyChr_of_lt (hexValOf [h1, h2, h3, h4]) (by omega)
          rw [unescapeL_hex (Or.inl rfl), hexEscStep_some hi hc, ht,
            Option.map_some']
        · exact absurd h (by simp)
      · rename_i h1 h2 h3 h4 rest
        split at h
        · rename_i hhex
          rcases Option.map_eq_some'.mp h with ⟨g2, hg2, hgg⟩
          subst hgg
          simp only [Bool.and_eq_true] at hhex
          obtain ⟨⟨⟨e1, e2⟩, e3⟩, e4⟩ := hhex
          have hlen2 : rest.length ≤ n := by
            simp only [List.length_cons] at hlen
            omega
          obtain ⟨t, ht⟩ := ih rest g2 hlen2 hg2
          obtain ⟨hi, hb⟩ := pyInt16_hex4 e1 e2 e3 e4
          refine ⟨Char.ofNat (hexValOf [h1, h2, h3, h4]) :: t, ?_⟩
          have hc := pyChr_of_lt (hexValOf [h1, h2, h3, h4]) (by omega)
          rw [unescapeL_hex (Or.inr rfl), hexEscStep_some hi hc, ht,
            Option.map_some']
        · exact absurd h (by simp)
      · rename_i c rest hnu hnU
        split at h
        · rename_i hset
          rcases Option.map_eq_some'.mp h with ⟨g2, hg2, hgg⟩
          subst hgg
          have hlen2 : rest.length ≤ n := by
            simp only [List.length_cons] at hlen
            omega
          obtain ⟨t, ht⟩ := ih rest g2 hlen2 hg2
          have hcu : ¬(c = 'u' ∨ c = 'U') := by
            simp only [Bool.or_eq_true, decide_eq_true_eq] at hset
            rintro (rfl | rfl) <;>
              rcases hset with h | h | h | h | h | h | h | h <;> simp at h
          rw [unescapeL_escape c g2 false (Or.inl hcu), ht]
          exact ⟨_, rfl⟩
        · exact absurd h (by simp)
      · rename_i c rest hq hhexu hhexU hesc
        rcases Option.map_eq_some'.mp h with ⟨g2, hg2, hgg⟩
        subst hgg
        have hlen2 : rest.length ≤ n := by
          simp only [List.length_cons] at hlen
          omega
        obtain ⟨t, ht⟩ := ih rest g2 hlen2 hg2
        have hcb : c ≠ '\\' := by
          intro hc
          cases rest with
          | nil => simp [strBodyScan] at hg2
          | cons e r2 => exact hesc e r2 hc rfl
        rw [unescapeL_plain c g2 false hcb, ht]
        exact ⟨_, rfl⟩

theorem ruleCoord_eq_none {v : PyStr}
    (h : ((pystr "C(").isPrefixOf v && (coordMatch v).isSome) = false) :
    ruleCoord v = Option.none := by
  cases hp : (pystr "C(").isPrefixOf v with
  | false => simp [ruleCoord, hp]
  | true =>
      rw [hp, Bool.true_and] at h
      cases hcm : coordMatch v with
      | none => simp [ruleCoord, hp, hcm]
      | some p => rw [hcm] at h; simp at h

theorem ruleBin_eq_none {v : PyStr}
    (h : ((pystr "Bin(").isPrefixOf v && (binMatch v).isSome) = false) :
    ruleBin v = Option.none := by
  cases hp : (pystr "Bin(").isPrefixOf v with
  | false => simp [ruleBin, hp]
  | true =>
      rw [hp, Bool.true_and] at h
      cases hcm : binMatch v with
      | none => simp [ruleBin, hp, hcm]
      | some p => rw [hcm] at h; simp at h

theorem ruleXstr_eq_none {v : PyStr}
    (h : ((containsC v '(' && endsC v ')' && !(pystr "C(").isPrefixOf v)
        && (xstrMatch v).isSome) = false) :
    ruleXstr v = Option.none := by
  cases hp : (containsC v '(' && endsC v ')' && !(pystr "C(").isPrefixOf v) with
  | false => simp [ruleXstr, hp]
  | true =>
      rw [hp, Bool.true_and] at h
      cases hcm : xstrMatch v with
      | none => simp [ruleXstr, hp, hcm]
      | some p => rw [hcm] at h; simp at h

theorem ruleRef_eq_none {v : PyStr} (h : v.head? ≠ some '@') :
    ruleRef v = Option.none := by
  cases v with
  | nil => rfl
  | cons c r =>
      rw [ruleRef.eq_def]
      split
      · rename_i heq
        rw [List.cons.injEq] at heq
        exact absurd (by simp [heq.1] : (c :: r : PyStr).head? = some '@') h
      · rfl

theorem ruleUri_eq_none {v : PyStr}
    (h : (decide (v.head? = some btick) && (uriMatch v).isSome) = false) :
    ruleUri v = Option.none := by
  cases v with
  | nil => rfl
  | cons c r =>
      rw [ruleUri.eq_def]
      by_cases hc : c = btick
      · subst hc
        have hh : (uriMatch (btick :: r)).isSome = false := by
          have hd : decide ((btick :: r : PyStr).head? = some btick) = true := by
            simp
          rw [hd, Bool.true_and] at h
          exact h
        cases hm : uriMatch (btick :: r) with
        | none => simp [hm]
        | some g => rw [hm] at hh; simp at hh
      · simp [hc]

theorem ruleStr_eq_none {v : PyStr}
    (h : (decide (v.head? = some '"') && (strMatch v).isSome) = false) :
    ruleStr v = Option.none := by
  cases v with
  | nil => rfl
  | cons c r =>
      rw [ruleStr.eq_def]
      split
      · rename_i heq
        rw [List.cons.injEq] at heq
        obtain ⟨hc, hr⟩ := heq
        subst hc hr
        have hh : (strMatch ('"' :: r)).isSome = false := by
          have hd : decide ((('"' :: r) : PyStr).head? = some '"') = true := by
            simp
          rw [hd, Bool.true_and] at h
          exact h
        cases hm : strMatch ('"' :: r) with
        | none => simp [hm]
        | some g => rw [hm] at hh; simp at hh
      · rfl

theorem ruleDt_eq_none {v : PyStr}
    (h : (containsC v 'T' && headDM v && (dtMatch v).isSome) = false) :
    ruleDt v = Option.none := by
  cases v with
  | nil => rfl
  | cons c r =>
      rw [ruleDt.eq_def]
      have hdm : headDM (c :: r) = (isDigitA c || c = '-') := rfl
      cases hg : (containsC (c :: r) 'T' && (isDigitA c || c = '-')) with
      | false => simp [hg]
      | true =>
          rw [← hdm] at hg
          rw [Bool.and_eq_false_iff] at h
          rcases h with h | h
          · rw [hg] at h; cases h
          · cases hm : dtMatch (c :: r) with
            | none => simp [hdm, hg, hm]
            | some p => rw [hm] at h; simp at h

theorem ruleDate_eq_none {v : PyStr} (h : (dateMatch v).isSome = false) :
    ruleDate v = Option.none := by
  cases hm : dateMatch v with
  | none => simp [ruleDate, hm]
  | some p => rw [hm] at h; simp at h

theorem ruleTime_eq_none {v : PyStr} (h : (timeMatch v).isSome = false) :
    ruleTime v = Option.none := by
  cases hm : timeMatch v with
  | none => simp [ruleTime, hm]
  | some p => rw [hm] at h; simp at h

theorem ruleNum_eq_none {v : PyStr} (h : (numberMatch v).isSome = false) :
    ruleNum v = Option.none := by
  cases hm : numberMatch v with
  | none => simp [ruleNum, hm]
  | some p => rw [hm] at h; simp at h

theorem bool_of_not_eq_false {b : Bool} (h : (!b) = false) : b = true := by
  cases b
  · simp at h
  · rfl

theorem bool_of_not_eq_true {b : Bool} (h : (!b) = true) : b = false := by
  cases b
  · rfl
  · simp at h

theorem ruleCoord_ok {v : PyStr} (h : badCoord v = false) :
    ruleCoord v = Option.none ∨ ∃ x, ruleCoord v = some (Except.ok x) := by
  cases hp : (pystr "C(").isPrefixOf v with
  | false => left; simp [ruleCoord, hp]
  | true =>
      cases hcm : coordMatch v with
      | none => left; simp [ruleCoord, hp, hcm]
      | some p =>
          obtain ⟨g1, g2⟩ := p
          have hf : (pyFloatOk g1 && pyFloatOk g2) = true := by
            unfold badCoord at h
            rw [hp, Bool.true_and, hcm] at h
            simpa using h
          right
          exact ⟨.coord g1 g2, by simp [ruleCoord, hp, hcm, hf]⟩

theorem ruleRef_ok (v : PyStr) :
    ruleRef v = Option.none ∨ ∃ x, ruleRef v = some (Except.ok x) := by
  cases v with
  | nil => left; rfl
  | cons c r =>
      rw [ruleRef.eq_def]
      split
      · cases hm : refMatch (c :: r) with
        | none => left; simp [hm]
        | some p =>
            obtain ⟨idp, dis⟩ := p
            right
            exact ⟨.ref idp dis, by simp [hm]⟩
      · left; rfl

theorem ruleBin_ok (v : PyStr) :
    ruleBin v = Option.none ∨ ∃ x, ruleBin v = some (Except.ok x) := by
  cases hp : (pystr "Bin(").isPrefixOf v with
  | false => left; simp [ruleBin, hp]
  | true =>
      cases hm : binMatch v with
      | none => left; simp [ruleBin, hp, hm]
      | some g => right; exact ⟨.bin g, by simp [ruleBin, hp, hm]⟩

theorem ruleXstr_ok {v : PyStr} (h : badXstrEsc v = false) :
    ruleXstr v = Option.none ∨ ∃ x, ruleXstr v = some (Except.ok x) := by
  cases hp : (containsC v '(' && endsC v ')' && !(pystr "C(").isPrefixOf v) with
  | false => left; simp [ruleXstr, hp]
  | true =>
      cases hm : xstrMatch v with
      | none => left; simp [ruleXstr, hp, hm]
      | some p =>
          obtain ⟨g1, g2⟩ := p
          have he : isErrE (pyUnescape g2 false) = false := by
            unfold badXstrEsc at h
            rw [hp, Bool.true_and, hm] at h
            exact h
          cases hu : pyUnescape g2 false with
          | error e => rw [hu] at he; simp [isErrE] at he
          | ok u =>
              right
              exact ⟨.xstr g1 u, by simp [ruleXstr, hp, hm, hu]⟩

theorem ruleUri_ok {v : PyStr} (h : badUriEsc v = false) :
    ruleUri v = Option.none ∨ ∃ x, ruleUri v = some (Except.ok x) := by
  cases v with
  | nil => left; rfl
  | cons c r =>
      rw [ruleUri.eq_def]
      by_cases hc : c = btick
      · subst hc
        cases hm : uriMatch (btick :: r) with
        | none => left; simp [hm]
        | some g =>
            have he : isErrE (pyUnescape g true) = false := by
              unfold badUriEsc at h
              rw [hm] at h
              have hd : decide (((btick :: r) : PyStr).head? = some btick) = true := by
                simp
              rw [hd, Bool.true_and] at h
              exact h
            cases hu : pyUnescape g true with
            | error e => rw [hu] at he; simp [isErrE] at he
            | ok u =>
                right
                exact ⟨.uri u, by simp [hm, hu]⟩
      · left; simp [hc]

theorem pyUnescape_ok_of_unescapeL {g : PyStr} {uri : Bool}
    (h : ∃ t, unescapeL g uri = some t) : ∃ u, pyUnescape g uri = .ok u := by
  obtain ⟨t, ht⟩ := h
  unfold pyUnescape
  by_cases hc : containsC g '\\'
  · rw [if_pos hc, ht]
    exact ⟨t, rfl⟩
  · rw [if_neg hc]
    exact ⟨g, rfl⟩

theorem ruleStr_ok (v : PyStr) :
    ruleStr v = Option.none ∨ ∃ x, ruleStr v = some (Except.ok x) := by
  cases v with
  | nil => left; rfl
  | cons c r =>
      rw [ruleStr.eq_def]
      split
      · rename_i heq
        rw [List.cons.injEq] at heq
        obtain ⟨hc, hr⟩ := heq
        subst hc hr
        cases hm : strMatch ('"' :: r) with
        | none => left; simp [hm]
        | some g =>
            have hscan : strBodyScan r = some g := hm
            obtain ⟨u, hu⟩ := pyUnescape_ok_of_unescapeL
              (strBody_unescape_ok r.length r g le_rfl hscan)
            right
            exact ⟨.str u, by simp [hm, hu]⟩
      · left; rfl

theorem ruleDt_ok {v : PyStr} (h : badDt v = false) :
    ruleDt v = Option.none ∨ ∃ x, ruleDt v = some (Except.ok x) := by
  cases v with
  | nil => left; rfl
  | cons c r =>
      rw [ruleDt.eq_def]
      cases hg : (containsC (c :: r) 'T' && (isDigitA c || c = '-')) with
      | false => left; simp [hg]
      | true =>
          cases hm : dtMatch (c :: r) with
          | none => left; simp [hg, hm]
          | some p =>
              have hv : (dateValid p.y p.mo p.d && timeValid p.h p.mi p.s) = true := by
                unfold badDt at h
                have hdm : headDM (c :: r) = (isDigitA c || c = '-') := rfl
                rw [hdm, hg, Bool.true_and, hm] at h
                exact bool_of_not_eq_false h
              right
              exact ⟨.datetime p.g1 p.zoneName, by simp [hg, hm, hv]⟩

theorem ruleDate_ok {v : PyStr} (h : badDate v = false) :
    ruleDate v = Option.none ∨ ∃ x, ruleDate v = some (Except.ok x) := by
  cases hm : dateMatch v with
  | none => left; simp [ruleDate, hm]
  | some p =>
      obtain ⟨y, m, d⟩ := p
      have hv : dateValid y m d = true := by
        unfold badDate at h
        rw [hm] at h
        exact bool_of_not_eq_false h
      right
      exact ⟨.date y m d, by simp [ruleDate, hm, hv]⟩

theorem ruleTime_ok {v : PyStr} (h : badTime v = false) :
    ruleTime v = Option.none ∨ ∃ x, ruleTime v = some (Except.ok x) := by
  cases hm : timeMatch v with
  | none => left; simp [ruleTime, hm]
  | some p =>
      obtain ⟨hh, mi, ss, fr⟩ := p
      have hv : (timeValid hh mi ss && (fr.isEmpty || fr.length ≤ 6)) = true := by
        unfold badTime at h
        rw [hm] at h
        exact bool_of_not_eq_false h
      right
      exact ⟨.time hh mi ss fr, by simp [ruleTime, hm, hv]⟩

theorem ruleNum_ok (v : PyStr) :
    ruleNum v = Option.none ∨ ∃ x, ruleNum v = some (Except.ok x) := by
  cases hm : numberMatch v with
  | none => left; simp [ruleNum, hm]
  | some p =>
      obtain ⟨g1, unit⟩ := p
      cases unit with
      | none =>
          right
          exact ⟨.num (g1.filter (fun c => c ≠ '_')), by simp [ruleNum, hm]⟩
      | some u =>
          right
          exact ⟨.quantity (g1.filter (fun c => c ≠ '_')) u, by simp [ruleNum, hm]⟩

/-! ### Claim theorems -/

/-- **C1** (refinement): for every fallback parser satisfying the
collaborator contract of spec §6 — observably equivalent to the fast path
wherever the fast path succeeds — `parse_grid` behaves identically to
always calling the fallback: on fast-path success the results coincide by
the contract, on fast-path failure the dispatcher returns the fallback's
result unchanged.  The full-grammar parser itself is not part of this
source, so it is quantified here and pinned only by the spec's contract. -/
theorem C1_dispatch_equals_fallback
    (fallback : PyStr → Except Unit Grid)
    (hcontract : ∀ t g, parseGridFast t = .ok g → fallback t = .ok g)
    (t : PyStr) : parseGrid fallback t = fallback t := by
  unfold parseGrid
  cases h : parseGridFast t with
  | ok g => exact (hcontract t g h).symm
  | error e => rfl

/-- Witness for C1 at a concrete fast-path-eligible grid, with the
fast parser itself as a contract-satisfying fallback. -/
theorem C1_witness :
    parseGrid (fun u => parseGridFast u) (pystr "ver:\"2.0\"\nempty")
      = parseGridFast (pystr "ver:\"2.0\"\nempty") :=
  C1_dispatch_equals_fallback (fun u => parseGridFast u) (fun _ _ h => h) _

/-- **C2** (error handling): whenever the fast parser fails — for any
reason, modelled by any `.error e` — `parse_grid` returns the fallback
applied to the entire original text, unchanged; no fast-path error or
partial grid can reach the caller, and only the fallback's own failure is
visible. -/
theorem C2_fallback_on_failure (fallback : PyStr → Except Unit Grid)
    (t : PyStr) (e : Unit) (h : parseGridFast t = .error e) :
    parseGrid fallback t = fallback t := by
  unfold parseGrid
  rw [h]

/-- Witness for C2 at the rejected input consisting of one opening brace,
with a failing fallback, showing the fallback's result (its own error) is
returned unchanged. -/
theorem C2_witness :
    parseGrid (fun _ => .error ()) [obrace] = .error () :=
  C2_fallback_on_failure (fun _ => .error ()) [obrace] () (by rfl)

/-- **C3** (eligibility guard): any input containing `<<` or `{` anywhere,
or `[` within its first 200 characters, is rejected by `parse_grid_fast`
before any grid is built — the checks are the first statements of the
function and yield an error result. -/
theorem C3_guard_rejects_complex (t : PyStr)
    (h : (containsSub t (pystr "<<") || containsC t obrace
        || containsC (t.take 200) '[') = true) :
    parseGridFast t = .error () := by
  cases hc : (containsSub t (pystr "<<") || containsC t obrace) with
  | true => simp only [parseGridFast, hc, if_true]
  | false =>
      rw [Bool.or_eq_false_iff] at hc
      obtain ⟨hc1, hc2⟩ := hc
      rw [hc1, hc2] at h
      simp only [Bool.false_or] at h
      simp only [parseGridFast, hc1, hc2, h, Bool.false_or,
        Bool.false_eq_true, if_false, if_true]

/-- Witness for C3 at the input `<<`. -/
theorem C3_witness : parseGridFast (pystr "<<") = .error () :=
  C3_guard_rejects_complex (pystr "<<") (by rfl)

/-- **C4** (amended, corrected by `C4_counterexample`): for a trimmed
nonempty token, `_parse_scalar` raises if the token begins with `[`, `{`
or `<<`; a token triggering no decoding rule is returned unchanged as an
opaque string, never an error; and an error can only arise from the
complex prefixes or from a prefix-matched Coordinate / XStr / URI /
DateTime / Date / Time shape whose payload fails `float`, escape decoding
or calendar validation — everywhere else the decoder returns a value. -/
theorem C4_scalar_error_conditions (v : PyStr)
    (hv : pyStrip v = v) (hne : v ≠ []) :
    (startsComplex v = true → pyParseScalar v = .error ())
    ∧ (startsComplex v = false → noRule v = true →
        pyParseScalar v = .ok (.str v))
    ∧ ((startsComplex v || badCoord v || badXstrEsc v || badUriEsc v
        || badDt v || badDate v || badTime v) = false →
        ∃ x, pyParseScalar v = .ok x) := by
  have hemp : v.isEmpty = false := by
    cases v with
    | nil => exact absurd rfl hne
    | cons c r => rfl
  refine ⟨?_, ?_, ?_⟩
  · intro hsc
    simp only [pyParseScalar, hv, hemp, Bool.false_eq_true, if_false, hsc,
      if_true]
  · intro hsc hnr
    simp only [noRule, Bool.and_eq_true] at hnr
    obtain ⟨⟨⟨⟨⟨⟨⟨⟨⟨⟨hsing, hcoord⟩, href⟩, hbin⟩, hxstr⟩, huri⟩, hstr⟩,
      hdt⟩, hdate⟩, htime⟩, hnum⟩ := hnr
    replace hsing := bool_of_not_eq_true hsing
    replace hcoord := bool_of_not_eq_true hcoord
    replace href := bool_of_not_eq_true href
    replace hbin := bool_of_not_eq_true hbin
    replace hxstr := bool_of_not_eq_true hxstr
    replace huri := bool_of_not_eq_true huri
    replace hstr := bool_of_not_eq_true hstr
    replace hdt := bool_of_not_eq_true hdt
    replace hdate := bool_of_not_eq_true hdate
    replace htime := bool_of_not_eq_true htime
    replace hnum := bool_of_not_eq_true hnum
    simp only [isSingletonTok, Bool.or_eq_false_iff,
      decide_eq_false_iff_not] at hsing
    obtain ⟨⟨⟨⟨⟨⟨⟨⟨hM, hN⟩, hNA⟩, hR⟩, hT⟩, hF⟩, hI⟩, hNI⟩, hNaN⟩ := hsing
    have href2 : v.head? ≠ some '@' := by simpa using href
    simp only [pyParseScalar, hv, hemp, Bool.false_eq_true, if_false, hsc,
      if_neg hM, if_neg hN, if_neg hNA, if_neg hR, if_neg hT, if_neg hF,
      if_neg hI, if_neg hNI, if_neg hNaN]
    unfold scalarRules
    rw [ruleCoord_eq_none hcoord, ruleRef_eq_none href2,
      ruleBin_eq_none hbin, ruleXstr_eq_none hxstr, ruleUri_eq_none huri,
      ruleStr_eq_none hstr, ruleDt_eq_none hdt, ruleDate_eq_none hdate,
      ruleTime_eq_none htime, ruleNum_eq_none hnum]
  · intro hgood
    simp only [Bool.or_eq_false_iff] at hgood
    obtain ⟨⟨⟨⟨⟨⟨hsc, hbc⟩, hbx⟩, hbu⟩, hbdt⟩, hbd⟩, hbt⟩ := hgood
    simp only [pyParseScalar, hv, hemp, Bool.false_eq_true, if_false, hsc]
    by_cases hM : v = pystr "M"
    · rw [if_pos hM]; exact ⟨_, rfl⟩
    rw [if_neg hM]
    by_cases hN : v = pystr "N"
    · rw [if_pos hN]; exact ⟨_, rfl⟩
    rw [if_neg hN]
    by_cases hNA : v = pystr "NA"
    · rw [if_pos hNA]; exact ⟨_, rfl⟩
    rw [if_neg hNA]
    by_cases hR : v = pystr "R"
    · rw [if_pos hR]; exact ⟨_, rfl⟩
    rw [if_neg hR]
    by_cases hT : v = pystr "T"
    · rw [if_pos hT]; exact ⟨_, rfl⟩
    rw [if_neg hT]
    by_cases hF : v = pystr "F"
    · rw [if_pos hF]; exact ⟨_, rfl⟩
    rw [if_neg hF]
    by_cases hI : v = pystr "INF"
    · rw [if_pos hI]; exact ⟨_, rfl⟩
    rw [if_neg hI]
    by_cases hNI : v = pystr "-INF"
    · rw [if_pos hNI]; exact ⟨_, rfl⟩
    rw [if_neg hNI]
    by_cases hNaN : v = pystr "NaN"
    · rw [if_pos hNaN]; exact ⟨_, rfl⟩
    rw [if_neg hNaN]
    unfold scalarRules
    rcases ruleCoord_ok hbc with hn | ⟨x, hx⟩
    swap
    · exact ⟨x, by rw [hx]⟩
    rw [hn]
    rcases ruleRef_ok v with hn2 | ⟨x, hx⟩
    swap
    · exact ⟨x, by rw [hx]⟩
    rw [hn2]
    rcases ruleBin_ok v with hn3 | ⟨x, hx⟩
    swap
    · exact ⟨x, by rw [hx]⟩
    rw [hn3]
    rcases ruleXstr_ok hbx with hn4 | ⟨x, hx⟩
    swap
    · exact ⟨x, by rw [hx]⟩
    rw [hn4]
    rcases ruleUri_ok hbu with hn5 | ⟨x, hx⟩
    swap
    · exact ⟨x, by rw [hx]⟩
    rw [hn5]
    rcases ruleStr_ok v with hn6 | ⟨x, hx⟩
    swap
    · exact ⟨x, by rw [hx]⟩
    rw [hn6]
    rcases ruleDt_ok hbdt with hn7 | ⟨x, hx⟩
    swap
    · exact ⟨x, by rw [hx]⟩
    rw [hn7]
    rcases ruleDate_ok hbd with hn8 | ⟨x, hx⟩
    swap
    · exact ⟨x, by rw [hx]⟩
    rw [hn8]
    rcases ruleTime_ok hbt with hn9 | ⟨x, hx⟩
    swap
    · exact ⟨x, by rw [hx]⟩
    rw [hn9]
    rcases ruleNum_ok v with hn10 | ⟨x, hx⟩
    swap
    · exact ⟨x, by rw [hx]⟩
    rw [hn10]
    exact ⟨_, rfl⟩

/-- Counterexample to C4 as stated: the token `2020-99-99` does not begin
with `[`, `{` or `<<`, yet `_parse_scalar` raises — the token matches the
Date shape and month 99 fails calendar validation in `strptime`. -/
theorem C4_counterexample :
    pyParseScalar (pystr "2020-99-99") = .error ()
      ∧ startsComplex (pystr "2020-99-99") = false := ⟨rfl, rfl⟩

/-- Witness for C4: a complex-prefixed token errors, and an opaque word
passes through unchanged. -/
theorem C4_witness :
    pyParseScalar (pystr "[a") = .error ()
      ∧ pyParseScalar (pystr "hello") = .ok (.str (pystr "hello")) :=
  ⟨(C4_scalar_error_conditions (pystr "[a") rfl (by decide)).1 rfl,
   (C4_scalar_error_conditions (pystr "hello") rfl (by decide)).2.1 rfl rfl⟩

theorem convertItems_err : ∀ (items : List MetaItem) (d : PyDict),
    (∃ it ∈ items, tagNameOk it.name = false) →
    isErrE (convertItems items d) = true := by
  intro items
  induction items with
  | nil =>
      intro d h
      rcases h with ⟨it, hmem, _⟩
      exact absurd hmem (List.not_mem_nil it)
  | cons it rest ih =>
      intro d h
      rcases h with ⟨it2, hmem, hbad⟩
      cases it with
      | kv k v =>
          cases hk : tagNameOk k with
          | false => simp [convertItems, hk, isErrE]
          | true =>
              rcases List.mem_cons.mp hmem with heq | hmem2
              · subst heq
                rw [MetaItem.name, hk] at hbad
                cases hbad
              · cases hs : pyParseScalar v with
                | error e => simp [convertItems, hk, hs, isErrE]
                | ok pv =>
                    simp only [convertItems, hk, hs, if_true]
                    exact ih _ ⟨it2, hmem2, hbad⟩
      | bare t =>
          cases hk : tagNameOk t with
          | false => simp [convertItems, hk, isErrE]
          | true =>
              rcases List.mem_cons.mp hmem with heq | hmem2
              · subst heq
                rw [MetaItem.name, hk] at hbad
                cases hbad
              · simp only [convertItems, hk, if_true]
                exact ih _ ⟨it2, hmem2, hbad⟩

/-- **C5** (metadata tag validation): any item of the metadata tag list
whose name fails `^[a-z][a-zA-Z0-9_]*$` makes `_parse_meta` raise, which
fails the whole grid parse and routes it to the fallback (final
conjunct, with a concrete grid whose metadata starts with an uppercase
tag); a bare tag maps to the Marker singleton and `foo:5` maps `foo` to
the number 5. -/
theorem C5_meta_tag_validation :
    (∀ s : PyStr, (∃ it ∈ metaItems s, tagNameOk it.name = false) →
        isErrE (pyParseMeta s) = true)
    ∧ pyParseMeta (pystr "foo") = .ok [(pystr "foo", PyVal.marker)]
    ∧ pyParseMeta (pystr "foo:5") = .ok [(pystr "foo", PyVal.num (pystr "5"))]
    ∧ (∀ fb : PyStr → Except Unit Grid,
        parseGrid fb (pystr "ver:\"2.0\" Foo\na")
          = fb (pystr "ver:\"2.0\" Foo\na")) := by
  refine ⟨?_, rfl, rfl, ?_⟩
  · intro s h
    cases s with
    | nil =>
        rcases h with ⟨it, hmem, _⟩
        rw [show metaItems ([] : PyStr) = [] from rfl] at hmem
        exact absurd hmem (List.not_mem_nil it)
    | cons c r =>
        cases hu : isUpperA c with
        | true => simp [pyParseMeta, hu, isErrE]
        | false =>
            simp only [pyParseMeta, hu, Bool.false_eq_true, if_false]
            exact convertItems_err _ _ h
  · intro fb
    have hf : parseGridFast (pystr "ver:\"2.0\" Foo\na") = .error () := rfl
    unfold parseGrid
    rw [hf]

/-- Witness for C5: the item list of `Foo:1` contains a pair whose name
starts with an uppercase letter, and the parse errors. -/
theorem C5_witness :
    isErrE (pyParseMeta (pystr "Foo:1")) = true :=
  C5_meta_tag_validation.1 (pystr "Foo:1")
    ⟨.kv (pystr "Foo") (pystr "1"), by decide, by decide⟩

/-- **C10** (prefix-only matching): the Coordinate, Reference, Bin and
DateTime patterns are applied with `re.match` and are not end-anchored,
so tokens carrying trailing text after a matching prefix decode to the
prefix's value with the trailing text silently discarded. -/
theorem C10_prefix_match_discards_trailing :
    pyParseScalar (pystr "@foo bar") = .ok (.ref (pystr "foo") Option.none)
    ∧ pyParseScalar (pystr "C(1,2)x")
        = .ok (.coord (pystr "1") (pystr "2"))
    ∧ pyParseScalar (pystr "Bin(text/plain)x")
        = .ok (.bin (pystr "text/plain"))
    ∧ pyParseScalar (pystr "2020-01-02T03:04:05Z!!")
        = .ok (.datetime (pystr "2020-01-02T03:04:05Z") Option.none) :=
  ⟨rfl, rfl, rfl, rfl⟩

/-- **C9** (amended, corrected by `C9_counterexample`): `_unescape` is the
identity on backslash-free input; `\u`/`\U` with four hexadecimal digits
yields the corresponding single code point; `\b \f \n \r \t` yield the
control characters; any other escaped character stands for itself, except
that in URI mode an escaped `#` keeps its leading backslash — and except
that a `\u`/`\U` escape whose four following characters do not form a
valid base-16 numeral for `chr` raises an error instead of passing
through. -/
theorem C9_unescape_behaviour :
    (∀ (s : PyStr) (uri : Bool), containsC s '\\' = false →
        pyUnescape s uri = .ok s)
    ∧ (∀ (esc h1 h2 h3 h4 : Char) (rest : PyStr) (uri : Bool),
        (esc = 'u' ∨ esc = 'U') →
        isHexA h1 = true → isHexA h2 = true → isHexA h3 = true →
        isHexA h4 = true →
        unescapeL ('\\' :: esc :: h1 :: h2 :: h3 :: h4 :: rest) uri
          = (unescapeL rest uri).map
              (fun t => Char.ofNat (hexValOf [h1, h2, h3, h4]) :: t))
    ∧ (∀ (rest : PyStr) (uri : Bool),
        unescapeL ('\\' :: 'b' :: rest) uri
            = (unescapeL rest uri).map (fun t => '\x08' :: t)
        ∧ unescapeL ('\\' :: 'f' :: rest) uri
            = (unescapeL rest uri).map (fun t => '\x0c' :: t)
        ∧ unescapeL ('\\' :: 'n' :: rest) uri
            = (unescapeL rest uri).map (fun t => '\n' :: t)
        ∧ unescapeL ('\\' :: 'r' :: rest) uri
            = (unescapeL rest uri).map (fun t => '\r' :: t)
        ∧ unescapeL ('\\' :: 't' :: rest) uri
            = (unescapeL rest uri).map (fun t => '\t' :: t))
    ∧ (∀ (esc : Char) (rest : PyStr) (uri : Bool),
        ¬(esc = 'u' ∨ esc = 'U') →
        ((esc = 'b' ∨ esc = 'f' ∨ esc = 'n' ∨ esc = 'r' ∨ esc = 't') →
          False) →
        ¬(uri = true ∧ esc = '#') →
        unescapeL ('\\' :: esc :: rest) uri
          = (unescapeL rest uri).map (fun t => esc :: t))
    ∧ (∀ rest : PyStr,
        unescapeL ('\\' :: '#' :: rest) true
          = (unescapeL rest true).map (fun t => '\\' :: '#' :: t))
    ∧ (∀ (esc h1 h2 h3 h4 : Char) (rest : PyStr) (uri : Bool),
        (esc = 'u' ∨ esc = 'U') →
        (pyInt16 [h1, h2, h3, h4]).bind pyChr = Option.none →
        unescapeL ('\\' :: esc :: h1 :: h2 :: h3 :: h4 :: rest) uri
          = Option.none) := by
  refine ⟨?_, ?_, ?_, ?_, ?_, ?_⟩
  · intro s uri h
    unfold pyUnescape
    rw [h]
    simp
  · intro esc h1 h2 h3 h4 rest uri hesc e1 e2 e3 e4
    obtain ⟨hi, hb⟩ := pyInt16_hex4 e1 e2 e3 e4
    have hc := pyChr_of_lt (hexValOf [h1, h2, h3, h4]) (by omega)
    rw [unescapeL_hex hesc, hexEscStep_some hi hc]
  · intro rest uri
    refine ⟨?_, ?_, ?_, ?_, ?_⟩ <;>
      · rw [unescapeL_escape _ rest uri (Or.inl (by decide))]
        cases unescapeL rest uri <;> rfl
  · intro esc rest uri hu hset hhash
    rw [unescapeL_escape esc rest uri (Or.inl hu)]
    have n1 : esc ≠ 'b' := fun h => hset (Or.inl h)
    have n2 : esc ≠ 'f' := fun h => hset (Or.inr (Or.inl h))
    have n3 : esc ≠ 'n' := fun h => hset (Or.inr (Or.inr (Or.inl h)))
    have n4 : esc ≠ 'r' := fun h => hset (Or.inr (Or.inr (Or.inr (Or.inl h))))
    have n5 : esc ≠ 't' := fun h => hset (Or.inr (Or.inr (Or.inr (Or.inr h))))
    have nh : (uri && decide (esc = '#')) = false := by
      by_cases hc : esc = '#'
      · cases uri with
        | true => exact absurd ⟨rfl, hc⟩ hhash
        | false => simp
      · simp [hc]
    cases unescapeL rest uri with
    | none => rfl
    | some t =>
        simp only [Option.map_some']
        rw [show escMap esc uri t = esc :: t from by
          simp only [escMap, if_neg n1, if_neg n2, if_neg n3, if_neg n4,
            if_neg n5, nh, Bool.false_eq_true, if_false]]
  · intro rest
    rw [unescapeL_escape '#' rest true (Or.inl (by decide))]
    cases unescapeL rest true <;> rfl
  · intro esc h1 h2 h3 h4 rest uri hesc hbad
    rw [unescapeL_hex hesc]
    unfold hexEscStep
    cases hp : pyInt16 [h1, h2, h3, h4] with
    | none => rfl
    | some n =>
        rw [hp, Option.some_bind] at hbad
        show (match pyChr n with
              | Option.none => Option.none
              | some c => Option.map (fun t => c :: t) (unescapeL rest uri))
            = Option.none
        rw [hbad]

/-- Counterexample to C9 as stated: in `\uZZZZ` the four characters after
`\u` are not hexadecimal digits, and instead of the escaped `u` standing
for itself `_unescape` raises. -/
theorem C9_counterexample :
    isErrE (pyUnescape (pystr "\\uZZZZ") false) = true
      ∧ pyUnescape (pystr "\\uZZZZ") false ≠ .ok (pystr "uZZZZ") := by
  refine ⟨rfl, ?_⟩
  simp [show pyUnescape (pystr "\\uZZZZ") false = .error () from rfl]

/-- Witness for C9 at concrete escapes. -/
theorem C9_witness :
    pyUnescape (pystr "ab") false = .ok (pystr "ab")
      ∧ unescapeL (pystr "\\u0041") false
          = (unescapeL ([] : PyStr) false).map
              (fun t => Char.ofNat (hexValOf (pystr "0041")) :: t)
      ∧ unescapeL (pystr "\\x") false
          = (unescapeL (pystr "") false).map (fun t => 'x' :: t)
      ∧ unescapeL (pystr "\\uZZZZ") false = Option.none :=
  ⟨C9_unescape_behaviour.1 (pystr "ab") false (by decide),
   C9_unescape_behaviour.2.1 'u' '0' '0' '4' '1' [] false (Or.inl rfl)
     (by decide) (by decide) (by decide) (by decide),
   C9_unescape_behaviour.2.2.2.1 'x' [] false (by decide) (by decide)
     (by decide),
   C9_unescape_behaviour.2.2.2.2.2 'u' 'Z' 'Z' 'Z' 'Z' [] false
     (Or.inl rfl) (by decide)⟩

/-- **C8** (amended, corrected by `C8_counterexample`): in the metadata
scanner, the key/value separator state is set (a `:` is recognised) only
while no quote or URI delimiter is currently open and no escape is
pending — i.e. every delimiter opened earlier in the token has been
closed, not necessarily none opened — and once set it is cleared only by
an item-separating space outside quote and URI, so within one
space-separated token at most one `:` is recognised. -/
theorem C8_separator_recognition :
    (∀ (st : MetaState) (c : Char), st.key = Option.none →
        (stepMeta st c).key ≠ Option.none →
        c = ':' ∧ st.in_quote = false ∧ st.in_uri = false
          ∧ st.escape_next = false)
    ∧ (∀ (st : MetaState) (c : Char), st.key ≠ Option.none →
        (stepMeta st c).key = Option.none →
        c = ' ' ∧ st.in_quote = false ∧ st.in_uri = false
          ∧ st.escape_next = false) := by
  constructor
  · intro st c h1 h2
    unfold stepMeta at h2
    split_ifs at h2 <;> try simp_all [Bool.not_eq_true]
    all_goals (split at h2 <;> simp_all)
  · intro st c h1 h2
    obtain ⟨k, hk⟩ := Option.ne_none_iff_exists'.mp h1
    unfold stepMeta at h2
    split_ifs at h2 <;> simp_all [Bool.not_eq_true]

/-- Counterexample to C8 as stated: in the single token `a"b":c` a double
quote opens (and closes) before the `:`, yet the `:` is still recognised
as the separator — the scanner produces the pair whose key `a"b"`
contains the quotes. -/
theorem C8_counterexample :
    metaItems (pystr "a\"b\":c")
        = [.kv (pystr "a\"b\"") (pystr "c")]
      ∧ containsC (pystr "a\"b\"") '"' = true := ⟨rfl, rfl⟩

/-- A scanner state with a pending key, for the C8 witness. -/
def c8St : MetaState :=
  { metaInit with key := some (pystr "k"), current := pystr "v" }

/-- Witness for C8: the separator fires from the initial state on `:`,
and a pending key is cleared exactly by an unquoted space. -/
theorem C8_witness :
    (':' = ':' ∧ metaInit.in_quote = false ∧ metaInit.in_uri = false
      ∧ metaInit.escape_next = false)
    ∧ (' ' = ' ' ∧ c8St.in_quote = false ∧ c8St.in_uri = false
      ∧ c8St.escape_next = false) :=
  ⟨C8_separator_recognition.1 metaInit ':' rfl (by decide),
   C8_separator_recognition.2 c8St ' ' (by decide) (by decide)⟩

theorem csv_values_stripped : ∀ (s : PyStr) (st : CsvState),
    (∀ v ∈ st.values, pyStrip v = v) →
    ∀ v ∈ (s.foldl stepCsv st).values, pyStrip v = v := by
  intro s
  induction s with
  | nil => intro st h v hv; exact h v hv
  | cons c r ih =>
      intro st h v hv
      rw [List.foldl_cons] at hv
      refine ih (stepCsv st c) ?_ v hv
      intro w hw
      unfold stepCsv at hw
      split_ifs at hw <;>
        first
          | exact h w hw
          | (rcases List.mem_append.mp hw with h2 | h2
             · exact h w h2
             · rw [List.mem_singleton.mp h2]; exact pyStrip_idem _)

theorem stepCsv_current_eq_nil {st : CsvState} {c : Char}
    (h : (stepCsv st c).current = []) :
    c = ',' ∧ st.in_string = false ∧ st.in_uri = false
      ∧ st.escape_next = false ∧ st.paren = 0 := by
  unfold stepCsv at h
  split_ifs at h <;> simp_all [Bool.not_eq_true]

theorem splitCsv_trailing (s : PyStr) (hne : s ≠ [])
    (h1 : (s.foldl stepCsv csvInit).in_string = false)
    (h2 : (s.foldl stepCsv csvInit).in_uri = false)
    (h3 : (s.foldl stepCsv csvInit).escape_next = false)
    (h4 : (s.foldl stepCsv csvInit).paren = 0) :
    splitCsv (s ++ [',']) = splitCsv s ++ [[]] := by
  set st := s.foldl stepCsv csvInit with hstdef
  have hstep : stepCsv st ','
      = { st with
            values := st.values ++ [pyStrip st.current]
            current := [] } := by
    simp [stepCsv, h1, h2, h3, h4, btick]
  have hfold : (s ++ [',']).foldl stepCsv csvInit = stepCsv st ',' := by
    rw [List.foldl_append]
    rfl
  have hlast : (s ++ [',']).getLast? = some ',' := by
    rw [List.getLast?_append]
    rfl
  have hL : splitCsv (s ++ [','])
      = (st.values ++ [pyStrip st.current]) ++ [[]] := by
    unfold splitCsv
    rw [hfold, hstep]
    simp [hlast, pyStrip]
  rw [hL]
  unfold splitCsv
  by_cases hc : st.current = []
  · obtain ⟨s0, c0, hs0⟩ := (List.eq_nil_or_concat s).resolve_left hne
    have hst2 : st = stepCsv (s0.foldl stepCsv csvInit) c0 := by
      rw [hstdef, hs0, List.concat_eq_append, List.foldl_append]
      rfl
    have hcur : (stepCsv (s0.foldl stepCsv csvInit) c0).current = [] := by
      rw [← hst2]
      exact hc
    have hcomma := (stepCsv_current_eq_nil hcur).1
    have hlasts : s.getLast? = some ',' := by
      rw [hs0, ← hcomma, List.concat_eq_append, List.getLast?_append]
      rfl
    have hcond : (!st.current.isEmpty
        || (!s.isEmpty && decide (s.getLast? = some ','))) = true := by
      rw [hlasts]
      cases hse : s.isEmpty with
      | true => exact absurd (List.isEmpty_iff.mp hse) hne
      | false => simp
    rw [if_pos hcond, ← hstdef, hc]
  · have hcond : (!st.current.isEmpty
        || (!s.isEmpty && decide (s.getLast? = some ','))) = true := by
      cases hcc : st.current.isEmpty with
      | true => exact absurd (List.isEmpty_iff.mp hcc) hc
      | false => simp
    rw [if_pos hcond, ← hstdef]

/-- **C7** (field splitter): a comma separates only outside a
double-quoted string, outside a backtick URI and at paren depth zero
(exhibited by the two concrete splits, whose protected commas are not
separators, and by the scanner's separator condition used in
`splitCsv_trailing`); appending a trailing comma to a nonempty line whose
scan ends with all trackers inactive produces exactly one extra empty
field; and every produced field is trimmed. -/
theorem C7_field_splitter :
    splitCsv (pystr "a,\"b,c\",d") = [pystr "a", pystr "\"b,c\"", pystr "d"]
    ∧ (∀ (line v : PyStr), v ∈ splitCsv line → pyStrip v = v)
    ∧ (∀ s : PyStr, s ≠ [] →
        (s.foldl stepCsv csvInit).in_string = false →
        (s.foldl stepCsv csvInit).in_uri = false →
        (s.foldl stepCsv csvInit).escape_next = false →
        (s.foldl stepCsv csvInit).paren = 0 →
        splitCsv (s ++ [',']) = splitCsv s ++ [[]])
    ∧ splitCsv (pystr "\"x,y\",(1,2),z")
        = [pystr "\"x,y\"", pystr "(1,2)", pystr "z"] := by
  refine ⟨rfl, ?_, ?_, rfl⟩
  · intro line v hv
    have hinit : ∀ w ∈ csvInit.values, pyStrip w = w := by
      intro w hw
      exact absurd hw (List.not_mem_nil w)
    simp only [splitCsv] at hv
    split at hv
    · rcases List.mem_append.mp hv with h2 | h2
      · exact csv_values_stripped line csvInit hinit v h2
      · rw [List.mem_singleton.mp h2]
        exact pyStrip_idem _
    · exact csv_values_stripped line csvInit hinit v hv
  · intro s hne h1 h2 h3 h4
    exact splitCsv_trailing s hne h1 h2 h3 h4

/-- Witness for C7: trailing comma on the line `a`, and trimmedness of its
single field. -/
theorem C7_witness :
    splitCsv (pystr "a" ++ [',']) = splitCsv (pystr "a") ++ [[]]
      ∧ pyStrip (pystr "a") = pystr "a" :=
  ⟨C7_field_splitter.2.2.1 (pystr "a") (by decide) (by decide) (by decide)
      (by decide) (by decide),
   C7_field_splitter.2.1 (pystr "a") (pystr "a") (by decide)⟩

theorem dictKeys_dictSet (d : PyDict) (k : PyStr) (pv : PyVal) :
    dictKeys (dictSet d k pv)
      = if k ∈ dictKeys d then dictKeys d else dictKeys d ++ [k] := by
  induction d with
  | nil =>
      rw [if_neg (show k ∉ dictKeys ([] : PyDict) from List.not_mem_nil k)]
      rfl
  | cons kv rest ih =>
      obtain ⟨k2, v2⟩ := kv
      by_cases hk : k2 = k
      · subst hk
        have h1 : dictSet ((k2, v2) :: rest) k2 pv = (k2, pv) :: rest := by
          simp [dictSet]
        have h2 : k2 ∈ dictKeys ((k2, v2) :: rest) := List.mem_cons_self k2 _
        rw [h1, if_pos h2]
        rfl
      · have h1 : dictSet ((k2, v2) :: rest) k pv
            = (k2, v2) :: dictSet rest k pv := by
          simp [dictSet, hk]
        rw [h1]
        have h2 : dictKeys ((k2, v2) :: dictSet rest k pv)
            = k2 :: dictKeys (dictSet rest k pv) := rfl
        have h3 : dictKeys ((k2, v2) :: rest) = k2 :: dictKeys rest := rfl
        rw [h2, h3, ih]
        by_cases hmem : k ∈ dictKeys rest
        · rw [if_pos hmem, if_pos (List.mem_cons_of_mem k2 hmem)]
        · rw [if_neg hmem, if_neg (show k ∉ k2 :: dictKeys rest by
            intro hmem2
            rcases List.mem_cons.mp hmem2 with h4 | h4
            · exact hk h4.symm
            · exact hmem h4), List.cons_append]

theorem buildRowGo_keys : ∀ (names : List PyStr) (i : Nat)
    (values : List PyStr) (acc : PyDict) (d : PyDict),
    buildRowGo names i values acc = .ok d →
    dictKeys d
      = names.foldl (fun a k => if k ∈ a then a else a ++ [k])
          (dictKeys acc) := by
  intro names
  induction names with
  | nil =>
      intro i values acc d h
      injection h with h2
      rw [← h2]
      rfl
  | cons name rest ih =>
      intro i values acc d h
      simp only [buildRowGo] at h
      rw [List.foldl_cons, ← dictKeys_dictSet acc name .none]
      split at h
      · split at h
        · exact absurd h (by simp)
        · rename_i pv hpv
          rw [ih _ _ _ _ h]
          rw [dictKeys_dictSet acc name pv, dictKeys_dictSet acc name .none]
      · exact ih _ _ _ _ h

theorem buildRow_keys (colNames values : List PyStr) (d : PyDict)
    (h : buildRow colNames values = .ok d) :
    dictKeys d = dedupKeys colNames := by
  simp only [buildRow] at h
  rw [buildRowGo_keys _ _ _ _ _ h]
  rfl

theorem parseRows_keys : ∀ (colNames : List PyStr) (lines : List PyStr)
    (rows : List PyDict), parseRows colNames lines = .ok rows →
    ∀ row ∈ rows, dictKeys row = dedupKeys colNames := by
  intro colNames lines
  induction lines with
  | nil =>
      intro rows h row hrow
      injection h with h2
      rw [← h2] at hrow
      exact absurd hrow (List.not_mem_nil row)
  | cons line0 rest ih =>
      intro rows h row hrow
      simp only [parseRows] at h
      split at h
      · exact ih rows h row hrow
      · split at h
        · exact absurd h (by simp)
        · split at h
          · split at h
            · exact absurd h (by simp)
            · rename_i row2 hrow2
              split at h
              · exact absurd h (by simp)
              · rename_i rows2 hrows2
                injection h with h2
                rw [← h2] at hrow
                rcases List.mem_cons.mp hrow with heq | hmem
                · subst heq
                  exact buildRow_keys _ _ _ hrow2
                · exact ih rows2 hrows2 row hmem
          · exact absurd h (by simp)

/-- The grid the fast parser produces for a 4-column header with a
2-field row and a 1-field row. -/
def c6Grid : Grid :=
  { version := pystr "3.0", metadata := [],
    columns := [(pystr "a", []), (pystr "b", []), (pystr "c", []),
                (pystr "d", [])],
    rows := [[(pystr "a", .num (pystr "1")), (pystr "b", .num (pystr "2")),
              (pystr "c", .none), (pystr "d", .none)],
             [(pystr "a", .num (pystr "3")), (pystr "b", .none),
              (pystr "c", .none), (pystr "d", .none)]] }

/-- **C6** (row shape): in every grid the fast parser returns, each row
has an entry for every declared column, addressed by name in declared
(first-occurrence) order; a row with fewer fields than columns is padded
with trailing Nulls (second conjunct: 2 fields against 4 columns give two
decoded values plus two nulls, and rows keep source order), and extra
fields beyond the declared columns are ignored (third conjunct). -/
theorem C6_row_shape :
    (∀ (t : PyStr) (g : Grid), parseGridFast t = .ok g →
        ∀ row ∈ g.rows, dictKeys row = dedupKeys (g.columns.map Prod.fst))
    ∧ parseGridFast (pystr "ver:\"3.0\"\na,b,c,d\n1,2\n3") = .ok c6Grid
    ∧ parseGridFast (pystr "ver:\"3.0\"\na,b\n1,2,3")
        = .ok { version := pystr "3.0", metadata := [],
                columns := [(pystr "a", []), (pystr "b", [])],
                rows := [[(pystr "a", .num (pystr "1")),
                          (pystr "b", .num (pystr "2"))]] } := by
  refine ⟨?_, rfl, rfl⟩
  intro t g h row hrow
  simp only [parseGridFast] at h
  repeat' split at h
  all_goals simp at h
  rename_i xe cols hcols xv rows hrows
  rw [← h] at hrow ⊢
  exact parseRows_keys _ _ _ hrows row hrow

/-- Witness for C6: the first row of the padded grid has exactly the four
declared column names as its keys, in declared order. -/
theorem C6_witness :
    dictKeys [(pystr "a", PyVal.num (pystr "1")),
              (pystr "b", PyVal.num (pystr "2")),
              (pystr "c", PyVal.none), (pystr "d", PyVal.none)]
      = dedupKeys (c6Grid.columns.map Prod.fst) :=
  C6_row_shape.1 (pystr "ver:\"3.0\"\na,b,c,d\n1,2\n3") c6Grid rfl
    [(pystr "a", PyVal.num (pystr "1")), (pystr "b", PyVal.num (pystr "2")),
     (pystr "c", PyVal.none), (pystr "d", PyVal.none)] (by decide)
